import Mathlib

/-!
# Marker generation and performer mutations of stash

A shallow embedding of `pkg/manager/task_generate_markers.go` and of
`pkg/api/resolver_mutation_performer.go`.

The generation task is embedded as a pure function of

* the artifact tree before the run (`FS`),
* the answers of the read-only lookups and of the video probe (`World`),
* the way every external call turns out (`MarkerOutcome`),

returning the artifact tree after the run and the list of external calls made
(`Event`).  A runtime failure (nil dereference) is the result `none`.
Calls to the logger change nothing that is modelled and are left out.
-/

namespace Stash

/-! ## Files and paths -/

/-- Bytes of a file, kept abstract. -/
abbrev Content := Nat

/-- Modelled from the spec: the path helpers of `instance.Paths` are not part of
the sources shown.  Section 6 gives the layout
`{generatedRoot}/markers/{contentHash}/{offsetSeconds}.{ext}` with `mp4` for clips
and `webp` for preview images, and a distinct temp root for temporary outputs;
section 4.1 says different (hash, offset, kind) triples never collide.  A path is
therefore kept in structured form. -/
inductive Path where
  /-- `{tmpRoot}/{filename}` -/
  | tmp (filename : String)
  /-- `{generatedRoot}/markers/{checksum}/{seconds}.mp4` -/
  | stream (checksum : String) (seconds : Int)
  /-- `{generatedRoot}/markers/{checksum}/{seconds}.webp` -/
  | streamPreviewImage (checksum : String) (seconds : Int)
  /-- `{generatedRoot}/markers/{checksum}`, the folder of a scene -/
  | markers (checksum : String)
  deriving DecidableEq, Repr

/-- Is the path under the temp root. -/
def Path.isTmp : Path → Bool
  | .tmp _ => true
  | _ => false

/-- Modelled from the spec: `instance.Paths.Generated.GetTmpPath`. -/
def GetTmpPath (fileName : String) : Path := Path.tmp fileName

/-- Modelled from the spec: `instance.Paths.SceneMarkers.GetStreamPath`. -/
def GetStreamPath (checksum : String) (seconds : Int) : Path := Path.stream checksum seconds

/-- Modelled from the spec: `instance.Paths.SceneMarkers.GetStreamPreviewImagePath`. -/
def GetStreamPreviewImagePath (checksum : String) (seconds : Int) : Path :=
  Path.streamPreviewImage checksum seconds

/-- The artifact tree: which file, if any, is at a path. -/
abbrev FS := Path → Option Content

/-- The tree with `c` written at `p`. -/
def FS.write (fs : FS) (p : Path) (c : Content) : FS :=
  fun q => if q = p then some c else fs q

/-- Modelled from the spec: `utils.FileExists` (section 4.2, "true only if the
file is present"); the error it also returns is dropped by every caller. -/
def FileExists (fs : FS) (p : Path) : Bool := (fs p).isSome

/-- Modelled from the spec: `utils.SafeMove`, the `placeAtomically` of section 4.2.
A move that succeeds puts the source file at the destination and removes it from
the source; a move that fails leaves the tree as it was.  `ok` says whether the
underlying rename goes through; a source that is not there cannot be moved. -/
def SafeMove (ok : Bool) (src dst : Path) (fs : FS) : FS :=
  if ok = true ∧ (fs src).isSome = true then
    fun q => if q = dst then fs src else if q = src then none else fs q
  else fs

/-! ## The encoder -/

/-- Result of probing the source file (`ffmpeg.NewVideoFile`); the task only
hands it on to the encoder. -/
structure VideoFile where
  Path : String
  deriving DecidableEq, Repr

/-- `ffmpeg.SceneMarkerOptions` as filled in by `generateMarker`. -/
structure SceneMarkerOptions where
  ScenePath : String
  Seconds : Int
  Width : Nat
  OutputPath : Path
  deriving DecidableEq, Repr

/-- How one call of the encoder turns out.  Modelled from the spec (sections 4.3
and 6): the encoder writes a file at the output path it is given, or fails; a
failed run may leave a truncated file at that output path and touches nothing
else. -/
inductive EncodeResult where
  | ok (c : Content)
  | failed (leftover : Option Content)
  deriving DecidableEq, Repr

/-- Whether the encoder call reports success (`err == nil`). -/
def EncodeResult.succeeded : EncodeResult → Bool
  | .ok _ => true
  | .failed _ => false

/-- The tree after an encoder call with output path `out`. -/
def EncodeResult.apply (r : EncodeResult) (out : Path) (fs : FS) : FS :=
  match r with
  | .ok c => fs.write out c
  | .failed (some c) => fs.write out c
  | .failed none => fs

/-- How the external calls of one `generateMarker` call turn out, should they
be made. -/
structure MarkerOutcome where
  video : EncodeResult
  videoMove : Bool
  image : EncodeResult
  imageMove : Bool
  deriving DecidableEq, Repr

/-- Every external call of the `generateMarker` call reports success. -/
def MarkerOutcome.allSucceed (o : MarkerOutcome) : Bool :=
  o.video.succeeded && o.videoMove && o.image.succeeded && o.imageMove

/-- An external call made by the task. -/
inductive Event where
  | EnsureDir (dir : Path)
  | SceneMarkerVideo (videoFile : VideoFile) (options : SceneMarkerOptions)
  | SceneMarkerImage (videoFile : VideoFile) (options : SceneMarkerOptions)
  | SafeMove (src dst : Path)
  deriving DecidableEq, Repr

/-- Is the event a call of the encoder. -/
def Event.isEncode : Event → Bool
  | .SceneMarkerVideo _ _ => true
  | .SceneMarkerImage _ _ => true
  | _ => false

/-- Is the event a call of `SceneMarkerVideo`. -/
def Event.isVideoEncode : Event → Bool
  | .SceneMarkerVideo _ _ => true
  | _ => false

/-- Is the event a call of `SceneMarkerImage`. -/
def Event.isImageEncode : Event → Bool
  | .SceneMarkerImage _ _ => true
  | _ => false

/-- Is the event a call of `utils.SafeMove`. -/
def Event.isMove : Event → Bool
  | .SafeMove _ _ => true
  | _ => false

/-- Is the event a move to the path `dst`. -/
def Event.isMoveTo (dst : Path) : Event → Bool
  | .SafeMove _ d => decide (d = dst)
  | _ => false

/-- Number of encoder invocations in a list of calls. -/
def encoderInvocations (tr : List Event) : Nat := (tr.filter Event.isEncode).length

/-- Number of moves in a list of calls. -/
def moves (tr : List Event) : Nat := (tr.filter Event.isMove).length

/-! ## Scenes, markers, the task -/

/-- `models.HashAlgorithm`. -/
inductive HashAlgorithm where
  | MD5
  | Oshash
  deriving DecidableEq, Repr

/-- `models.Scene`, the fields the task reads. -/
structure Scene where
  ID : Int
  Path : String
  Checksum : String
  OSHash : String
  deriving DecidableEq, Repr

/-- Modelled from the spec: `Scene.GetHash` is not part of the sources shown; the
content-hash of a scene is "computed via a configurable algorithm" (section 3),
and is empty when the scene has no hash of that kind. -/
def Scene.GetHash (s : Scene) (hashAlgorithm : HashAlgorithm) : String :=
  match hashAlgorithm with
  | .MD5 => s.Checksum
  | .Oshash => s.OSHash

/-- `models.SceneMarker`.  `Seconds` is the value of `int(sceneMarker.Seconds)`:
the task reads the floating-point offset through this conversion only. -/
structure SceneMarker where
  SceneID : Int
  Seconds : Int
  deriving DecidableEq, Repr

/-- `GenerateMarkersTask`; the transaction manager is in `World`. -/
structure GenerateMarkersTask where
  Scene : Option Scene
  Marker : Option SceneMarker
  Overwrite : Bool
  fileNamingAlgorithm : HashAlgorithm
  deriving DecidableEq, Repr

/-- What the task reads from outside: the lookups made inside `WithReadTxn`
(which hands the error of its function on unchanged) and the probe of the source
file. -/
structure World where
  /-- `r.SceneMarker().FindBySceneID` -/
  FindBySceneID : Int → Except String (List SceneMarker)
  /-- `r.Scene().Find`; `none` is the nil scene -/
  Find : Int → Except String (Option Scene)
  /-- `ffmpeg.NewVideoFile(instance.FFProbePath, path, false)` -/
  NewVideoFile : String → Except String VideoFile

/-- `strconv.Itoa`. -/
def Itoa (i : Int) : String := toString i

/-- `GenerateMarkersTask.videoExists`. -/
def videoExists (fs : FS) (sceneChecksum : String) (seconds : Int) : Bool :=
  if sceneChecksum = "" then false
  else
    let videoPath := GetStreamPath sceneChecksum seconds
    FileExists fs videoPath

/-- `GenerateMarkersTask.imageExists`. -/
def imageExists (fs : FS) (sceneChecksum : String) (seconds : Int) : Bool :=
  if sceneChecksum = "" then false
  else
    let imagePath := GetStreamPreviewImagePath sceneChecksum seconds
    FileExists fs imagePath

/-- `GenerateMarkersTask.markerExists`. -/
def markerExists (fs : FS) (sceneChecksum : String) (seconds : Int) : Bool :=
  if sceneChecksum = "" then false
  else
    let videoPath := GetStreamPath sceneChecksum seconds
    let imagePath := GetStreamPreviewImagePath sceneChecksum seconds
    let videoExists := FileExists fs videoPath
    let imageExists := FileExists fs imagePath
    videoExists && imageExists

/-- The block of `generateMarker` run for the clip (lines 110-119): the encoder
writes to the temporary path and, if it reports success, the output is moved to
the canonical path; the result of the move is dropped. -/
def videoStep (videoFile : VideoFile) (scene : Scene) (sceneHash : String) (seconds : Int)
    (o : MarkerOutcome) (fs : FS) : FS × List Event :=
  let videoFilename := Itoa seconds ++ ".mp4"
  let videoPath := GetStreamPath sceneHash seconds
  let options : SceneMarkerOptions :=
    { ScenePath := scene.Path, Seconds := seconds, Width := 640,
      OutputPath := GetTmpPath videoFilename }
  let fs1 := o.video.apply options.OutputPath fs
  if o.video.succeeded then
    (SafeMove o.videoMove options.OutputPath videoPath fs1,
      [Event.SceneMarkerVideo videoFile options, Event.SafeMove options.OutputPath videoPath])
  else
    (fs1, [Event.SceneMarkerVideo videoFile options])

/-- The block of `generateMarker` run for the preview image (lines 123-132). -/
def imageStep (videoFile : VideoFile) (scene : Scene) (sceneHash : String) (seconds : Int)
    (o : MarkerOutcome) (fs : FS) : FS × List Event :=
  let imageFilename := Itoa seconds ++ ".webp"
  let imagePath := GetStreamPreviewImagePath sceneHash seconds
  let options : SceneMarkerOptions :=
    { ScenePath := scene.Path, Seconds := seconds, Width := 640,
      OutputPath := GetTmpPath imageFilename }
  let fs1 := o.image.apply options.OutputPath fs
  if o.image.succeeded then
    (SafeMove o.imageMove options.OutputPath imagePath fs1,
      [Event.SceneMarkerImage videoFile options, Event.SafeMove options.OutputPath imagePath])
  else
    (fs1, [Event.SceneMarkerImage videoFile options])

/-- `GenerateMarkersTask.generateMarker`.  The content-hash is read from `t.Scene`,
not from the `scene` argument; with `t.Scene` nil that read is a nil
dereference. -/
def generateMarker (t : GenerateMarkersTask) (videoFile : VideoFile) (scene : Scene)
    (sceneMarker : SceneMarker) (o : MarkerOutcome) (fs : FS) : Option (FS × List Event) :=
  match t.Scene with
  | none => none
  | some tScene =>
    let sceneHash := tScene.GetHash t.fileNamingAlgorithm
    let seconds := sceneMarker.Seconds
    let videoExists := videoExists fs sceneHash seconds
    let imageExists := imageExists fs sceneHash seconds
    let r1 : FS × List Event :=
      if t.Overwrite || !videoExists then videoStep videoFile scene sceneHash seconds o fs
      else (fs, [])
    let r2 : FS × List Event :=
      if t.Overwrite || !imageExists then imageStep videoFile scene sceneHash seconds o r1.1
      else (r1.1, [])
    some (r2.1, r1.2 ++ r2.2)

/-- The loop of `generateSceneMarkers` (lines 84-89) from position `i` on: the
tree after it and, for every marker in turn, the calls made for it. -/
def markerLoop (t : GenerateMarkersTask) (videoFile : VideoFile) (scene : Scene)
    (o : Nat → MarkerOutcome) : Nat → List SceneMarker → FS → Option (FS × List (List Event))
  | _, [], fs => some (fs, [])
  | i, sceneMarker :: rest, fs =>
    match generateMarker t videoFile scene sceneMarker (o i) fs with
    | none => none
    | some (fs1, tr) =>
      match markerLoop t videoFile scene o (i + 1) rest fs1 with
      | none => none
      | some (fs2, trs) => some (fs2, tr :: trs)

/-- `GenerateMarkersTask.generateSceneMarkers`; `o i` says how the external calls
for the marker at position `i` of the list turn out. -/
def generateSceneMarkers (w : World) (t : GenerateMarkersTask) (o : Nat → MarkerOutcome)
    (fs : FS) : Option (FS × List Event) :=
  match t.Scene with
  | none => none
  | some tScene =>
    match w.FindBySceneID tScene.ID with
    | .error _ => some (fs, [])
    | .ok sceneMarkers =>
      if sceneMarkers.length = 0 then some (fs, [])
      else
        match w.NewVideoFile tScene.Path with
        | .error _ => some (fs, [])
        | .ok videoFile =>
          let sceneHash := tScene.GetHash t.fileNamingAlgorithm
          let markersFolder := Path.markers sceneHash
          match markerLoop t videoFile tScene o 0 sceneMarkers fs with
          | none => none
          | some (fs1, trs) => some (fs1, Event.EnsureDir markersFolder :: trs.flatten)

/-- `GenerateMarkersTask.Start`, without the wait group.  `o` is for the markers
of scene mode, `om` for the marker of marker mode.  Line 47 reads `t.Scene.Path`,
a nil dereference when `t.Scene` is nil. -/
def Start (w : World) (t : GenerateMarkersTask) (o : Nat → MarkerOutcome) (om : MarkerOutcome)
    (fs : FS) : Option (FS × List Event) :=
  let r0 : Option (FS × List Event) :=
    match t.Scene with
    | some _ => generateSceneMarkers w t o fs
    | none => some (fs, [])
  match r0 with
  | none => none
  | some (fs0, tr0) =>
    match t.Marker with
    | none => some (fs0, tr0)
    | some marker =>
      match w.Find marker.SceneID with
      | .error _ => some (fs0, tr0)
      | .ok none => some (fs0, tr0)
      | .ok (some scene) =>
        match t.Scene with
        | none => none
        | some tScene =>
          match w.NewVideoFile tScene.Path with
          | .error _ => some (fs0, tr0)
          | .ok videoFile =>
            match generateMarker t videoFile scene marker om fs0 with
            | none => none
            | some (fs1, tr1) => some (fs1, tr0 ++ tr1)

/-- `GenerateMarkersTask.isMarkerNeeded`; `none` is the nil dereference of
`t.Scene.ID` when the task has no scene. -/
def isMarkerNeeded (w : World) (t : GenerateMarkersTask) (fs : FS) : Option Nat :=
  match t.Scene with
  | none => none
  | some tScene =>
    match w.FindBySceneID tScene.ID with
    | .error _ => some 0
    | .ok sceneMarkers =>
      if sceneMarkers.length = 0 then some 0
      else
        let sceneHash := tScene.GetHash t.fileNamingAlgorithm
        some (sceneMarkers.foldl
          (fun markers sceneMarker =>
            let seconds := sceneMarker.Seconds
            if t.Overwrite || !markerExists fs sceneHash seconds then markers + 1 else markers)
          0)

/-- Output paths handed to the encoder in a list of calls, in order. -/
def encoderOutputPaths : List Event → List Path
  | [] => []
  | .SceneMarkerVideo _ options :: rest => options.OutputPath :: encoderOutputPaths rest
  | .SceneMarkerImage _ options :: rest => options.OutputPath :: encoderOutputPaths rest
  | _ :: rest => encoderOutputPaths rest

/-- Number of encoder invocations `generateMarker` makes for one marker on the
tree `fs`; zero when it does not return. -/
def markerInvocations (t : GenerateMarkersTask) (videoFile : VideoFile) (scene : Scene)
    (sceneMarker : SceneMarker) (o : MarkerOutcome) (fs : FS) : Nat :=
  match generateMarker t videoFile scene sceneMarker o fs with
  | some r => encoderInvocations r.2
  | none => 0

/-- The markers `FindBySceneID` returns for the scene; none on a lookup error. -/
def markersFound (w : World) (scene : Scene) : List SceneMarker :=
  match w.FindBySceneID scene.ID with
  | .ok sceneMarkers => sceneMarkers
  | .error _ => []

/-- The two kinds of artifact of a marker. -/
inductive Kind where
  | clip
  | previewImage
  deriving DecidableEq, Repr

/-- The canonical path of the artifact of a kind. -/
def canonicalPath (checksum : String) (seconds : Int) : Kind → Path
  | .clip => GetStreamPath checksum seconds
  | .previewImage => GetStreamPreviewImagePath checksum seconds

/-- How the encoder call and the move for one kind turn out. -/
def MarkerOutcome.ofKind (o : MarkerOutcome) : Kind → EncodeResult × Bool
  | .clip => (o.video, o.videoMove)
  | .previewImage => (o.image, o.imageMove)

/-- The kind of artifact an external call is about: that of the encoder function
called, or of the canonical path moved to. -/
def Event.kindOf : Event → Option Kind
  | .SceneMarkerVideo _ _ => some .clip
  | .SceneMarkerImage _ _ => some .previewImage
  | .SafeMove _ (.stream _ _) => some .clip
  | .SafeMove _ (.streamPreviewImage _ _) => some .previewImage
  | _ => none

/-- The calls of a list that are about one kind of artifact. -/
def kindEvents (k : Kind) (tr : List Event) : List Event :=
  tr.filter (fun e => decide (e.kindOf = some k))

/-! ## Performers

`pkg/api/resolver_mutation_performer.go`.  The store behind the performer
repository is a parameter `σ`; every repository call takes the store and returns
an error or the store after the call.  A resolver returns the calls it made on
the repository, its result (`Except.error e` is the Go result `nil, e`) and the
store after it. -/

/-- `sql.NullString`. -/
structure NullString where
  String : String := ""
  Valid : Bool := false
  deriving DecidableEq, Repr

/-- `sql.NullBool`. -/
structure NullBool where
  Valid : Bool := false
  Bool : Bool := false
  deriving DecidableEq, Repr

/-- `models.SQLiteDate`. -/
structure SQLiteDate where
  String : String := ""
  Valid : Bool := false
  deriving DecidableEq, Repr

/-- `models.SQLiteTimestamp`; the time is a number. -/
structure SQLiteTimestamp where
  Timestamp : Nat := 0
  deriving DecidableEq, Repr

/-- `models.Performer`; a field that is not set has the zero value of its type. -/
structure Performer where
  ID : Int := 0
  Checksum : String := ""
  Name : NullString := {}
  Gender : NullString := {}
  URL : NullString := {}
  Twitter : NullString := {}
  Instagram : NullString := {}
  Birthdate : SQLiteDate := {}
  Ethnicity : NullString := {}
  Country : NullString := {}
  EyeColor : NullString := {}
  Height : NullString := {}
  Measurements : NullString := {}
  FakeTits : NullString := {}
  CareerLength : NullString := {}
  Tattoos : NullString := {}
  Piercings : NullString := {}
  Aliases : NullString := {}
  Favorite : NullBool := {}
  CreatedAt : SQLiteTimestamp := {}
  UpdatedAt : SQLiteTimestamp := {}
  deriving DecidableEq, Repr

/-- `models.PerformerPartial`; `none` is the nil pointer, a field not to be
written. -/
structure PerformerPartial where
  ID : Int := 0
  Checksum : Option String := none
  Name : Option NullString := none
  Gender : Option NullString := none
  URL : Option NullString := none
  Twitter : Option NullString := none
  Instagram : Option NullString := none
  Birthdate : Option SQLiteDate := none
  Ethnicity : Option NullString := none
  Country : Option NullString := none
  EyeColor : Option NullString := none
  Height : Option NullString := none
  Measurements : Option NullString := none
  FakeTits : Option NullString := none
  CareerLength : Option NullString := none
  Tattoos : Option NullString := none
  Piercings : Option NullString := none
  Aliases : Option NullString := none
  Favorite : Option NullBool := none
  CreatedAt : Option SQLiteTimestamp := none
  UpdatedAt : Option SQLiteTimestamp := none
  deriving DecidableEq, Repr

set_option linter.dupNamespace false

/-- `models.StashIDInput`. -/
structure StashIDInput where
  Endpoint : String
  StashID : String
  deriving DecidableEq, Repr

/-- `models.StashID`. -/
structure StashID where
  Endpoint : String
  StashID : String
  deriving DecidableEq, Repr

/-- `models.PerformerCreateInput`; `none` is the nil pointer (for `StashIds` the
nil slice), and `Gender` holds the text `GenderEnum.String()` gives. -/
structure PerformerCreateInput where
  Name : String
  URL : Option String := none
  Gender : Option String := none
  Birthdate : Option String := none
  Ethnicity : Option String := none
  Country : Option String := none
  EyeColor : Option String := none
  Height : Option String := none
  Measurements : Option String := none
  FakeTits : Option String := none
  CareerLength : Option String := none
  Tattoos : Option String := none
  Piercings : Option String := none
  Aliases : Option String := none
  Twitter : Option String := none
  Instagram : Option String := none
  Favorite : Option Bool := none
  Image : Option String := none
  StashIds : Option (List StashIDInput) := none
  deriving DecidableEq, Repr

/-- `models.PerformerUpdateInput`. -/
structure PerformerUpdateInput where
  ID : String
  Name : Option String := none
  URL : Option String := none
  Gender : Option String := none
  Birthdate : Option String := none
  Ethnicity : Option String := none
  Country : Option String := none
  EyeColor : Option String := none
  Height : Option String := none
  Measurements : Option String := none
  FakeTits : Option String := none
  CareerLength : Option String := none
  Tattoos : Option String := none
  Piercings : Option String := none
  Aliases : Option String := none
  Twitter : Option String := none
  Instagram : Option String := none
  Favorite : Option Bool := none
  Image : Option String := none
  StashIds : Option (List StashIDInput) := none
  deriving DecidableEq, Repr

/-- The helpers of other packages the resolvers call, and the clock. -/
structure Env where
  /-- `utils.MD5FromString` -/
  MD5FromString : String → String
  /-- `utils.ProcessBase64Image`, the bytes it returns or its error -/
  ProcessBase64Image : String → Except String (List Nat)
  /-- `models.StashIDsFromInput` -/
  StashIDsFromInput : List StashIDInput → List StashID
  /-- `strconv.Atoi`: the value it returns and its error, if any; on an error
  the value is zero for text that is no number and the nearest machine integer
  for a number out of range -/
  Atoi : String → Int × Option String
  /-- `time.Now()` -/
  Now : Nat

/-- A call on the performer repository. -/
inductive RepoCall where
  | Create (newPerformer : Performer)
  | Update (updatedPerformer : PerformerPartial)
  | UpdateImage (performerID : Int) (image : List Nat)
  | DestroyImage (performerID : Int)
  | UpdateStashIDs (performerID : Int) (stashIDs : List StashID)
  deriving DecidableEq, Repr

/-- The performer repository of a transaction (`repo.Performer()`), over a store
`σ`. -/
structure PerformerRepo (σ : Type) where
  Create : Performer → σ → Except String (Performer × σ)
  Update : PerformerPartial → σ → Except String (Performer × σ)
  UpdateImage : Int → List Nat → σ → Except String σ
  DestroyImage : Int → σ → Except String σ
  UpdateStashIDs : Int → List StashID → σ → Except String σ

/-- What a resolver leaves behind: the repository calls it made, its result and
the store after it. -/
structure Outcome (σ : Type) (α : Type) where
  calls : List RepoCall
  result : Except String α
  store : σ

/-- Modelled from the spec: `withTxn` is not part of the sources shown.  Section
4.5: "If `fn` returns an error, the entire transaction is rolled back and no
partial mutation is visible; if it returns successfully, the transaction commits
atomically."  The function of the transaction returns the calls it made
together with the error, or with its value and the store it has reached. -/
def withTxn {σ α : Type} (fn : σ → List RepoCall × Except String (α × σ)) (s : σ) :
    Outcome σ α :=
  match fn s with
  | (calls, .ok (a, s1)) => { calls := calls, result := .ok a, store := s1 }
  | (calls, .error e) => { calls := calls, result := .error e, store := s }

/-- The image bytes of an input: those of `ProcessBase64Image` when an image is
given, none otherwise. -/
def processImage (env : Env) (image : Option String) : Except String (List Nat) :=
  match image with
  | some img => env.ProcessBase64Image img
  | none => .ok []

/-- A text column from an optional input of a create: set when given. -/
def nullStringOf (value : Option String) : NullString :=
  match value with
  | some v => { String := v, Valid := true }
  | none => {}

/-- The record `PerformerCreate` populates from its input (lines 28-85). -/
def newPerformer (env : Env) (input : PerformerCreateInput) : Performer :=
  { Checksum := env.MD5FromString input.Name,
    CreatedAt := { Timestamp := env.Now },
    UpdatedAt := { Timestamp := env.Now },
    Name := { String := input.Name, Valid := true },
    URL := nullStringOf input.URL,
    Gender := nullStringOf input.Gender,
    Birthdate :=
      (match input.Birthdate with
        | some v => { String := v, Valid := true }
        | none => {}),
    Ethnicity := nullStringOf input.Ethnicity,
    Country := nullStringOf input.Country,
    EyeColor := nullStringOf input.EyeColor,
    Height := nullStringOf input.Height,
    Measurements := nullStringOf input.Measurements,
    FakeTits := nullStringOf input.FakeTits,
    CareerLength := nullStringOf input.CareerLength,
    Tattoos := nullStringOf input.Tattoos,
    Piercings := nullStringOf input.Piercings,
    Aliases := nullStringOf input.Aliases,
    Twitter := nullStringOf input.Twitter,
    Instagram := nullStringOf input.Instagram,
    Favorite :=
      (match input.Favorite with
        | some v => { Bool := v, Valid := true }
        | none => { Bool := false, Valid := true }) }

/-- The function `PerformerCreate` runs inside its transaction (lines 89-113). -/
def performerCreateTxn {σ : Type} (env : Env) (repo : PerformerRepo σ)
    (input : PerformerCreateInput) (newPerformer : Performer) (imageData : List Nat) (s : σ) :
    List RepoCall × Except String (Performer × σ) :=
  match repo.Create newPerformer s with
  | .error e => ([.Create newPerformer], .error e)
  | .ok (performer, s1) =>
    let image : List RepoCall × Except String σ :=
      if imageData.length > 0 then
        ([.UpdateImage performer.ID imageData], repo.UpdateImage performer.ID imageData s1)
      else ([], .ok s1)
    match image with
    | (calls1, .error e) => (.Create newPerformer :: calls1, .error e)
    | (calls1, .ok s2) =>
      match input.StashIds with
      | none => (.Create newPerformer :: calls1, .ok (performer, s2))
      | some stashIds =>
        let stashIDJoins := env.StashIDsFromInput stashIds
        match repo.UpdateStashIDs performer.ID stashIDJoins s2 with
        | .error e =>
          (.Create newPerformer :: calls1 ++ [.UpdateStashIDs performer.ID stashIDJoins],
            .error e)
        | .ok s3 =>
          (.Create newPerformer :: calls1 ++ [.UpdateStashIDs performer.ID stashIDJoins],
            .ok (performer, s3))

/-- `mutationResolver.PerformerCreate`. -/
def PerformerCreate {σ : Type} (env : Env) (repo : PerformerRepo σ)
    (input : PerformerCreateInput) (s : σ) : Outcome σ Performer :=
  match processImage env input.Image with
  | .error e => { calls := [], result := .error e, store := s }
  | .ok imageData =>
    withTxn (performerCreateTxn env repo input (newPerformer env input) imageData) s

/-- Modelled from the spec: `changesetTranslator.hasField` is not part of the
sources shown; sections 3 and 9 describe a request map that tells a field that
was supplied from one that was not.  The map is the list of the fields
supplied. -/
def hasField (inputMap : List String) (field : String) : Bool := inputMap.contains field

/-- Modelled from the spec: `changesetTranslator.nullString`: a field not supplied
is left alone, a field supplied as null is cleared, a field supplied with a value
is set (section 3, ChangeSet); the gender block of `PerformerUpdate` spells the
same out. -/
def translatorNullString (inputMap : List String) (value : Option String) (field : String) :
    Option NullString :=
  if hasField inputMap field then
    match value with
    | some v => some { String := v, Valid := true }
    | none => some { String := "", Valid := false }
  else none

/-- Modelled from the spec: `changesetTranslator.sqliteDate`, as `nullString`. -/
def translatorSqliteDate (inputMap : List String) (value : Option String) (field : String) :
    Option SQLiteDate :=
  if hasField inputMap field then
    match value with
    | some v => some { String := v, Valid := true }
    | none => some { String := "", Valid := false }
  else none

/-- Modelled from the spec: `changesetTranslator.nullBool`, as `nullString`. -/
def translatorNullBool (inputMap : List String) (value : Option Bool) (field : String) :
    Option NullBool :=
  if hasField inputMap field then
    match value with
    | some v => some { Bool := v, Valid := true }
    | none => some { Bool := false, Valid := false }
  else none

/-- The partial `PerformerUpdate` populates from its input (lines 121-173);
`inputMap` is `getUpdateInputMap(ctx)`.  The error of `strconv.Atoi` is dropped
and the value it returns is the id, as on line 122. -/
def updatedPerformer (env : Env) (input : PerformerUpdateInput) (inputMap : List String) :
    PerformerPartial :=
  let performerID : Int := (env.Atoi input.ID).1
  { ID := performerID,
    UpdatedAt := some { Timestamp := env.Now },
    Name :=
      (match input.Name with
        | some name => some { String := name, Valid := true }
        | none => none),
    Checksum :=
      (match input.Name with
        | some name => some (env.MD5FromString name)
        | none => none),
    URL := translatorNullString inputMap input.URL "url",
    Gender :=
      (if hasField inputMap "gender" then
        match input.Gender with
        | some g => some { String := g, Valid := true }
        | none => some { String := "", Valid := false }
      else none),
    Birthdate := translatorSqliteDate inputMap input.Birthdate "birthdate",
    Country := translatorNullString inputMap input.Country "country",
    EyeColor := translatorNullString inputMap input.EyeColor "eye_color",
    Measurements := translatorNullString inputMap input.Measurements "measurements",
    Height := translatorNullString inputMap input.Height "height",
    Ethnicity := translatorNullString inputMap input.Ethnicity "ethnicity",
    FakeTits := translatorNullString inputMap input.FakeTits "fake_tits",
    CareerLength := translatorNullString inputMap input.CareerLength "career_length",
    Tattoos := translatorNullString inputMap input.Tattoos "tattoos",
    Piercings := translatorNullString inputMap input.Piercings "piercings",
    Aliases := translatorNullString inputMap input.Aliases "aliases",
    Twitter := translatorNullString inputMap input.Twitter "twitter",
    Instagram := translatorNullString inputMap input.Instagram "instagram",
    Favorite := translatorNullBool inputMap input.Favorite "favorite" }

/-- The function `PerformerUpdate` runs inside its transaction (lines 177-207). -/
def performerUpdateTxn {σ : Type} (env : Env) (repo : PerformerRepo σ)
    (input : PerformerUpdateInput) (inputMap : List String) (updatedPerformer : PerformerPartial)
    (imageData : List Nat) (s : σ) : List RepoCall × Except String (Performer × σ) :=
  match repo.Update updatedPerformer s with
  | .error e => ([.Update updatedPerformer], .error e)
  | .ok (performer, s1) =>
    let image : List RepoCall × Except String σ :=
      if imageData.length > 0 then
        ([.UpdateImage performer.ID imageData], repo.UpdateImage performer.ID imageData s1)
      else if hasField inputMap "image" then
        ([.DestroyImage performer.ID], repo.DestroyImage performer.ID s1)
      else ([], .ok s1)
    match image with
    | (calls1, .error e) => (.Update updatedPerformer :: calls1, .error e)
    | (calls1, .ok s2) =>
      if hasField inputMap "stash_ids" then
        let stashIDJoins := env.StashIDsFromInput (input.StashIds.getD [])
        match repo.UpdateStashIDs updatedPerformer.ID stashIDJoins s2 with
        | .error e =>
          (.Update updatedPerformer :: calls1 ++
              [.UpdateStashIDs updatedPerformer.ID stashIDJoins],
            .error e)
        | .ok s3 =>
          (.Update updatedPerformer :: calls1 ++
              [.UpdateStashIDs updatedPerformer.ID stashIDJoins],
            .ok (performer, s3))
      else (.Update updatedPerformer :: calls1, .ok (performer, s2))

/-- `mutationResolver.PerformerUpdate`. -/
def PerformerUpdate {σ : Type} (env : Env) (repo : PerformerRepo σ)
    (input : PerformerUpdateInput) (inputMap : List String) (s : σ) : Outcome σ Performer :=
  match processImage env input.Image with
  | .error e => { calls := [], result := .error e, store := s }
  | .ok imageData =>
    withTxn
      (performerUpdateTxn env repo input inputMap (updatedPerformer env input inputMap) imageData)
      s

/-- Modelled from the spec: the `Update` of the performer repository is not part
of the sources shown; a partial update leaves a column that is not supplied
untouched and writes a column that is (section 3, ChangeSet).  The row written
is the one with the `ID` of the partial. -/
def PerformerPartial.applyTo (p : PerformerPartial) (stored : Performer) : Performer :=
  { ID := stored.ID,
    Checksum := p.Checksum.getD stored.Checksum,
    Name := p.Name.getD stored.Name,
    Gender := p.Gender.getD stored.Gender,
    URL := p.URL.getD stored.URL,
    Twitter := p.Twitter.getD stored.Twitter,
    Instagram := p.Instagram.getD stored.Instagram,
    Birthdate := p.Birthdate.getD stored.Birthdate,
    Ethnicity := p.Ethnicity.getD stored.Ethnicity,
    Country := p.Country.getD stored.Country,
    EyeColor := p.EyeColor.getD stored.EyeColor,
    Height := p.Height.getD stored.Height,
    Measurements := p.Measurements.getD stored.Measurements,
    FakeTits := p.FakeTits.getD stored.FakeTits,
    CareerLength := p.CareerLength.getD stored.CareerLength,
    Tattoos := p.Tattoos.getD stored.Tattoos,
    Piercings := p.Piercings.getD stored.Piercings,
    Aliases := p.Aliases.getD stored.Aliases,
    Favorite := p.Favorite.getD stored.Favorite,
    CreatedAt := p.CreatedAt.getD stored.CreatedAt,
    UpdatedAt := p.UpdatedAt.getD stored.UpdatedAt }

/-! ## Example inputs -/

/-- A scene with MD5 content-hash `abc`. -/
def exScene : Scene := { ID := 1, Path := "/media/a.mp4", Checksum := "abc", OSHash := "" }

/-- A second scene, with MD5 content-hash `def`. -/
def exSceneB : Scene := { ID := 2, Path := "/media/b.mp4", Checksum := "def", OSHash := "" }

/-- A scene that has no content-hash yet. -/
def exSceneNoHash : Scene := { ID := 3, Path := "/media/c.mp4", Checksum := "", OSHash := "" }

/-- A marker at second 5 of scene 1. -/
def exMarker : SceneMarker := { SceneID := 1, Seconds := 5 }

/-- A marker at second 5 of scene 2. -/
def exMarkerB : SceneMarker := { SceneID := 2, Seconds := 5 }

/-- Every scene has the one marker `exMarker`; scene 1 is `exScene`, every other
id `exSceneB`; every probe succeeds. -/
def exWorld : World :=
  { FindBySceneID := fun _ => .ok [exMarker],
    Find := fun id => if id = 1 then .ok (some exScene) else .ok (some exSceneB),
    NewVideoFile := fun path => .ok { Path := path } }

/-- Every lookup fails. -/
def exWorldDown : World :=
  { FindBySceneID := fun _ => .error "database is locked",
    Find := fun _ => .error "database is locked",
    NewVideoFile := fun path => .ok { Path := path } }

/-- Every external call succeeds. -/
def exAllOk : MarkerOutcome :=
  { video := .ok 11, videoMove := true, image := .ok 12, imageMove := true }

/-- The clip encode fails and leaves a truncated file; the rest succeeds. -/
def exVideoFails : MarkerOutcome :=
  { video := .failed (some 99), videoMove := true, image := .ok 12, imageMove := true }

/-- The tree with no file. -/
def emptyFS : FS := fun _ => none

/-- Scene mode on `exScene`, overwriting. -/
def exTaskOverwrite : GenerateMarkersTask :=
  { Scene := some exScene, Marker := none, Overwrite := true, fileNamingAlgorithm := .MD5 }

/-- Scene mode on `exScene`, not overwriting. -/
def exTask : GenerateMarkersTask :=
  { Scene := some exScene, Marker := none, Overwrite := false, fileNamingAlgorithm := .MD5 }

/-- Scene mode on `exSceneB`, not overwriting. -/
def exTaskB : GenerateMarkersTask :=
  { Scene := some exSceneB, Marker := none, Overwrite := false, fileNamingAlgorithm := .MD5 }

/-- Scene mode on the scene without a content-hash, not overwriting. -/
def exTaskNoHash : GenerateMarkersTask :=
  { Scene := some exSceneNoHash, Marker := none, Overwrite := false, fileNamingAlgorithm := .MD5 }

/-- Marker mode: a marker and no scene. -/
def exMarkerTask : GenerateMarkersTask :=
  { Scene := none, Marker := some exMarker, Overwrite := false, fileNamingAlgorithm := .MD5 }

/-- A store with a table of performers, a table of images and a table of
external-id links. -/
structure ExStore where
  performers : List Performer := []
  images : List (Int × List Nat) := []
  stashIDs : List (Int × StashID) := []
  deriving DecidableEq, Repr

/-- A performer repository over `ExStore`; the write of the external-id links
fails when `failStashIDs` is set. -/
def exRepo (failStashIDs : Bool) : PerformerRepo ExStore :=
  { Create := fun p s =>
      let row : Performer := { p with ID := (s.performers.length : Int) + 1 }
      .ok (row, { s with performers := s.performers ++ [row] }),
    Update := fun p s =>
      match s.performers.find? (fun row => decide (row.ID = p.ID)) with
      | some row =>
        .ok (p.applyTo row,
          { s with performers :=
              s.performers.map (fun r => if r.ID = p.ID then p.applyTo r else r) })
      | none => .error "performer not found",
    UpdateImage := fun id image s =>
      .ok { s with images := (id, image) :: s.images.filter (fun r => decide (r.1 ≠ id)) },
    DestroyImage := fun id s =>
      .ok { s with images := s.images.filter (fun r => decide (r.1 ≠ id)) },
    UpdateStashIDs := fun id stashIDs s =>
      if failStashIDs then .error "FOREIGN KEY constraint failed"
      else
        .ok { s with stashIDs :=
                stashIDs.map (fun x => (id, x)) ++
                  s.stashIDs.filter (fun r => decide (r.1 ≠ id)) } }

/-- Helpers for the examples: the checksum is the name in brackets, every image
decodes to three bytes. -/
def exEnv : Env :=
  { MD5FromString := fun name => "md5(" ++ name ++ ")",
    ProcessBase64Image := fun _ => .ok [1, 2, 3],
    StashIDsFromInput := fun l => l.map (fun x => { Endpoint := x.Endpoint, StashID := x.StashID }),
    Atoi := fun _ => (1, none),
    Now := 1000 }

/-- A performer with an image and two external-id links. -/
def exCreateInput : PerformerCreateInput :=
  { Name := "Ada",
    Image := some "data:image/png;base64,AAEC",
    StashIds := some [{ Endpoint := "https://a.example", StashID := "x1" },
      { Endpoint := "https://b.example", StashID := "x2" }] }

/-- The same performer without external-id links. -/
def exCreateInputPlain : PerformerCreateInput :=
  { Name := "Ada", Image := some "data:image/png;base64,AAEC" }

/-- A new name for performer 1. -/
def exUpdateInput : PerformerUpdateInput := { ID := "1", Name := some "Grace" }

/-- Three markers, at seconds 5, 10 and 15. -/
def exThreeMarkers : List SceneMarker :=
  [{ SceneID := 1, Seconds := 5 }, { SceneID := 1, Seconds := 10 },
    { SceneID := 1, Seconds := 15 }]

/-- The encoder fails for the clip of the second marker only. -/
def exSecondClipFails (i : Nat) : MarkerOutcome :=
  if i = 1 then exVideoFails else exAllOk

/-! ## Frame lemmas for the external calls -/

theorem EncodeResult.apply_of_ne (r : EncodeResult) (out : Path) (fs : FS) (p : Path)
    (h : p ≠ out) : r.apply out fs p = fs p := by
  cases r with
  | ok c => simp [EncodeResult.apply, FS.write, h]
  | failed l => cases l <;> simp [EncodeResult.apply, FS.write, h]

theorem EncodeResult.apply_ok_self (c : Content) (out : Path) (fs : FS) :
    (EncodeResult.ok c).apply out fs out = some c := by
  simp [EncodeResult.apply, FS.write]

theorem SafeMove_of_ne (ok : Bool) (src dst : Path) (fs : FS) (p : Path)
    (hs : p ≠ src) (hd : p ≠ dst) : SafeMove ok src dst fs p = fs p := by
  unfold SafeMove
  split
  · simp [hs, hd]
  · rfl

theorem SafeMove_false (src dst : Path) (fs : FS) : SafeMove false src dst fs = fs := by
  simp [SafeMove]

theorem SafeMove_true_dst (src dst : Path) (fs : FS) (c : Content) (h : fs src = some c) :
    SafeMove true src dst fs dst = some c := by
  simp [SafeMove, h]

/-- A file at a path that is not the source of the move is still there after it. -/
theorem SafeMove_isSome (ok : Bool) (src dst : Path) (fs : FS) (p : Path)
    (hs : p ≠ src) (h : (fs p).isSome = true) : (SafeMove ok src dst fs p).isSome = true := by
  unfold SafeMove
  split
  · next hc =>
    by_cases hd : p = dst
    · simp [hd, hc.2]
    · simp [hs, hd, h]
  · exact h

/-! ## One artifact step -/

theorem videoStep_trace (videoFile : VideoFile) (scene : Scene) (sceneHash : String)
    (seconds : Int) (o : MarkerOutcome) (fs : FS) :
    (videoStep videoFile scene sceneHash seconds o fs).2 =
      Event.SceneMarkerVideo videoFile
          { ScenePath := scene.Path, Seconds := seconds, Width := 640,
            OutputPath := GetTmpPath (Itoa seconds ++ ".mp4") } ::
        (if o.video.succeeded = true then
          [Event.SafeMove (GetTmpPath (Itoa seconds ++ ".mp4")) (GetStreamPath sceneHash seconds)]
         else []) := by
  unfold videoStep
  by_cases h : o.video.succeeded = true <;> simp [h]

theorem imageStep_trace (videoFile : VideoFile) (scene : Scene) (sceneHash : String)
    (seconds : Int) (o : MarkerOutcome) (fs : FS) :
    (imageStep videoFile scene sceneHash seconds o fs).2 =
      Event.SceneMarkerImage videoFile
          { ScenePath := scene.Path, Seconds := seconds, Width := 640,
            OutputPath := GetTmpPath (Itoa seconds ++ ".webp") } ::
        (if o.image.succeeded = true then
          [Event.SafeMove (GetTmpPath (Itoa seconds ++ ".webp"))
            (GetStreamPreviewImagePath sceneHash seconds)]
         else []) := by
  unfold imageStep
  by_cases h : o.image.succeeded = true <;> simp [h]

/-- The clip step changes the tree at its temporary path and at its canonical
path only. -/
theorem videoStep_frame (videoFile : VideoFile) (scene : Scene) (sceneHash : String)
    (seconds : Int) (o : MarkerOutcome) (fs : FS) (p : Path)
    (ht : p ≠ GetTmpPath (Itoa seconds ++ ".mp4")) (hc : p ≠ GetStreamPath sceneHash seconds) :
    (videoStep videoFile scene sceneHash seconds o fs).1 p = fs p := by
  unfold videoStep
  by_cases h : o.video.succeeded = true
  · simp only [h, if_true]
    rw [SafeMove_of_ne _ _ _ _ _ ht hc, EncodeResult.apply_of_ne _ _ _ _ ht]
  · simp only [h]
    exact EncodeResult.apply_of_ne _ _ _ _ ht

/-- The preview-image step changes the tree at its temporary path and at its
canonical path only. -/
theorem imageStep_frame (videoFile : VideoFile) (scene : Scene) (sceneHash : String)
    (seconds : Int) (o : MarkerOutcome) (fs : FS) (p : Path)
    (ht : p ≠ GetTmpPath (Itoa seconds ++ ".webp"))
    (hc : p ≠ GetStreamPreviewImagePath sceneHash seconds) :
    (imageStep videoFile scene sceneHash seconds o fs).1 p = fs p := by
  unfold imageStep
  by_cases h : o.image.succeeded = true
  · simp only [h, if_true]
    rw [SafeMove_of_ne _ _ _ _ _ ht hc, EncodeResult.apply_of_ne _ _ _ _ ht]
  · simp only [h]
    exact EncodeResult.apply_of_ne _ _ _ _ ht

/-- A clip step whose encoder call fails changes the tree at its temporary path
only. -/
theorem videoStep_failed_frame (videoFile : VideoFile) (scene : Scene) (sceneHash : String)
    (seconds : Int) (o : MarkerOutcome) (fs : FS) (p : Path)
    (hf : o.video.succeeded = false) (ht : p ≠ GetTmpPath (Itoa seconds ++ ".mp4")) :
    (videoStep videoFile scene sceneHash seconds o fs).1 p = fs p := by
  unfold videoStep
  simp only [hf]
  exact EncodeResult.apply_of_ne _ _ _ _ ht

/-- A preview-image step whose encoder call fails changes the tree at its
temporary path only. -/
theorem imageStep_failed_frame (videoFile : VideoFile) (scene : Scene) (sceneHash : String)
    (seconds : Int) (o : MarkerOutcome) (fs : FS) (p : Path)
    (hf : o.image.succeeded = false) (ht : p ≠ GetTmpPath (Itoa seconds ++ ".webp")) :
    (imageStep videoFile scene sceneHash seconds o fs).1 p = fs p := by
  unfold imageStep
  simp only [hf]
  exact EncodeResult.apply_of_ne _ _ _ _ ht

/-- `generateMarker` on a task with a scene, written out. -/
theorem generateMarker_eq (t : GenerateMarkersTask) (videoFile : VideoFile) (scene : Scene)
    (sceneMarker : SceneMarker) (o : MarkerOutcome) (fs : FS) (tScene : Scene)
    (h : t.Scene = some tScene) :
    generateMarker t videoFile scene sceneMarker o fs =
      some
        ((if (t.Overwrite ||
              !imageExists fs (tScene.GetHash t.fileNamingAlgorithm) sceneMarker.Seconds) = true
          then
            imageStep videoFile scene (tScene.GetHash t.fileNamingAlgorithm) sceneMarker.Seconds o
              (if (t.Overwrite ||
                  !videoExists fs (tScene.GetHash t.fileNamingAlgorithm) sceneMarker.Seconds) = true
                then videoStep videoFile scene (tScene.GetHash t.fileNamingAlgorithm)
                  sceneMarker.Seconds o fs
                else (fs, [])).1
          else ((if (t.Overwrite ||
                  !videoExists fs (tScene.GetHash t.fileNamingAlgorithm) sceneMarker.Seconds) = true
                then videoStep videoFile scene (tScene.GetHash t.fileNamingAlgorithm)
                  sceneMarker.Seconds o fs
                else (fs, [])).1, [])).1,
         (if (t.Overwrite ||
              !videoExists fs (tScene.GetHash t.fileNamingAlgorithm) sceneMarker.Seconds) = true
          then (videoStep videoFile scene (tScene.GetHash t.fileNamingAlgorithm)
                  sceneMarker.Seconds o fs).2
          else []) ++
         (if (t.Overwrite ||
              !imageExists fs (tScene.GetHash t.fileNamingAlgorithm) sceneMarker.Seconds) = true
          then (imageStep videoFile scene (tScene.GetHash t.fileNamingAlgorithm)
                  sceneMarker.Seconds o
                  (if (t.Overwrite ||
                      !videoExists fs (tScene.GetHash t.fileNamingAlgorithm)
                        sceneMarker.Seconds) = true
                    then videoStep videoFile scene (tScene.GetHash t.fileNamingAlgorithm)
                      sceneMarker.Seconds o fs
                    else (fs, [])).1).2
          else [])) := by
  unfold generateMarker
  rw [h]
  simp only
  split_ifs <;> rfl

/-- On a task with a scene `generateMarker` returns. -/
theorem generateMarker_total (t : GenerateMarkersTask) (videoFile : VideoFile) (scene : Scene)
    (sceneMarker : SceneMarker) (o : MarkerOutcome) (fs : FS) (tScene : Scene)
    (h : t.Scene = some tScene) :
    ∃ fs1 tr, generateMarker t videoFile scene sceneMarker o fs = some (fs1, tr) := by
  rw [generateMarker_eq t videoFile scene sceneMarker o fs tScene h]
  exact ⟨_, _, rfl⟩

/-- The calls made by `generateMarker` on a task with a scene. -/
theorem generateMarker_trace (t : GenerateMarkersTask) (videoFile : VideoFile) (scene : Scene)
    (sceneMarker : SceneMarker) (o : MarkerOutcome) (fs : FS) (tScene : Scene)
    (h : t.Scene = some tScene) :
    ∃ fs1, generateMarker t videoFile scene sceneMarker o fs =
      some (fs1,
        (if (t.Overwrite ||
              !videoExists fs (tScene.GetHash t.fileNamingAlgorithm) sceneMarker.Seconds) = true
          then
            Event.SceneMarkerVideo videoFile
                { ScenePath := scene.Path, Seconds := sceneMarker.Seconds, Width := 640,
                  OutputPath := GetTmpPath (Itoa sceneMarker.Seconds ++ ".mp4") } ::
              (if o.video.succeeded = true then
                [Event.SafeMove (GetTmpPath (Itoa sceneMarker.Seconds ++ ".mp4"))
                  (GetStreamPath (tScene.GetHash t.fileNamingAlgorithm) sceneMarker.Seconds)]
               else [])
          else []) ++
        (if (t.Overwrite ||
              !imageExists fs (tScene.GetHash t.fileNamingAlgorithm) sceneMarker.Seconds) = true
          then
            Event.SceneMarkerImage videoFile
                { ScenePath := scene.Path, Seconds := sceneMarker.Seconds, Width := 640,
                  OutputPath := GetTmpPath (Itoa sceneMarker.Seconds ++ ".webp") } ::
              (if o.image.succeeded = true then
                [Event.SafeMove (GetTmpPath (Itoa sceneMarker.Seconds ++ ".webp"))
                  (GetStreamPreviewImagePath (tScene.GetHash t.fileNamingAlgorithm)
                    sceneMarker.Seconds)]
               else [])
          else [])) := by
  rw [generateMarker_eq t videoFile scene sceneMarker o fs tScene h]
  simp only [videoStep_trace, imageStep_trace]
  exact ⟨_, rfl⟩

/-- `generateMarker` changes the tree at the two temporary paths and at the two
canonical paths of its marker only. -/
theorem generateMarker_frame (t : GenerateMarkersTask) (videoFile : VideoFile) (scene : Scene)
    (sceneMarker : SceneMarker) (o : MarkerOutcome) (fs fs1 : FS) (tr : List Event)
    (tScene : Scene) (h : t.Scene = some tScene)
    (hr : generateMarker t videoFile scene sceneMarker o fs = some (fs1, tr)) (p : Path)
    (htv : p ≠ GetTmpPath (Itoa sceneMarker.Seconds ++ ".mp4"))
    (hti : p ≠ GetTmpPath (Itoa sceneMarker.Seconds ++ ".webp"))
    (hcv : p ≠ GetStreamPath (tScene.GetHash t.fileNamingAlgorithm) sceneMarker.Seconds)
    (hci : p ≠ GetStreamPreviewImagePath (tScene.GetHash t.fileNamingAlgorithm)
      sceneMarker.Seconds) :
    fs1 p = fs p := by
  rw [generateMarker_eq t videoFile scene sceneMarker o fs tScene h] at hr
  simp only [Option.some.injEq, Prod.mk.injEq] at hr
  rw [← hr.1]
  split_ifs
  · rw [imageStep_frame _ _ _ _ _ _ _ hti hci, videoStep_frame _ _ _ _ _ _ _ htv hcv]
  · rw [imageStep_frame _ _ _ _ _ _ _ hti hci]
  · rw [videoStep_frame _ _ _ _ _ _ _ htv hcv]
  · rfl

/-- A file at a path other than the temporary path of the clip step is still
there after the step. -/
theorem videoStep_isSome (videoFile : VideoFile) (scene : Scene) (sceneHash : String)
    (seconds : Int) (o : MarkerOutcome) (fs : FS) (p : Path)
    (ht : p ≠ GetTmpPath (Itoa seconds ++ ".mp4")) (hp : (fs p).isSome = true) :
    ((videoStep videoFile scene sceneHash seconds o fs).1 p).isSome = true := by
  by_cases h : o.video.succeeded = true
  · unfold videoStep
    simp only [h, if_true]
    apply SafeMove_isSome _ _ _ _ _ ht
    rw [EncodeResult.apply_of_ne _ _ _ _ ht]
    exact hp
  · rw [videoStep_failed_frame _ _ _ _ _ _ _ (by simpa using h) ht]
    exact hp

/-- A file at a path other than the temporary path of the preview-image step is
still there after the step. -/
theorem imageStep_isSome (videoFile : VideoFile) (scene : Scene) (sceneHash : String)
    (seconds : Int) (o : MarkerOutcome) (fs : FS) (p : Path)
    (ht : p ≠ GetTmpPath (Itoa seconds ++ ".webp")) (hp : (fs p).isSome = true) :
    ((imageStep videoFile scene sceneHash seconds o fs).1 p).isSome = true := by
  by_cases h : o.image.succeeded = true
  · unfold imageStep
    simp only [h, if_true]
    apply SafeMove_isSome _ _ _ _ _ ht
    rw [EncodeResult.apply_of_ne _ _ _ _ ht]
    exact hp
  · rw [imageStep_failed_frame _ _ _ _ _ _ _ (by simpa using h) ht]
    exact hp

/-- When the encoder call and the move of the clip step succeed, the clip is at
its canonical path after the step. -/
theorem videoStep_success (videoFile : VideoFile) (scene : Scene) (sceneHash : String)
    (seconds : Int) (o : MarkerOutcome) (fs : FS)
    (he : o.video.succeeded = true) (hm : o.videoMove = true) :
    ((videoStep videoFile scene sceneHash seconds o fs).1
      (GetStreamPath sceneHash seconds)).isSome = true := by
  unfold videoStep
  simp only [he, hm, if_true]
  cases hv : o.video with
  | ok c =>
    rw [SafeMove_true_dst _ _ _ c (EncodeResult.apply_ok_self _ _ _)]
    rfl
  | failed l => rw [hv] at he; cases he

/-- When the encoder call and the move of the preview-image step succeed, the
preview image is at its canonical path after the step. -/
theorem imageStep_success (videoFile : VideoFile) (scene : Scene) (sceneHash : String)
    (seconds : Int) (o : MarkerOutcome) (fs : FS)
    (he : o.image.succeeded = true) (hm : o.imageMove = true) :
    ((imageStep videoFile scene sceneHash seconds o fs).1
      (GetStreamPreviewImagePath sceneHash seconds)).isSome = true := by
  unfold imageStep
  simp only [he, hm, if_true]
  cases hv : o.image with
  | ok c =>
    rw [SafeMove_true_dst _ _ _ c (EncodeResult.apply_ok_self _ _ _)]
    rfl
  | failed l => rw [hv] at he; cases he

/-- `generateMarker` removes no file outside the temp root. -/
theorem generateMarker_isSome (t : GenerateMarkersTask) (videoFile : VideoFile) (scene : Scene)
    (sceneMarker : SceneMarker) (o : MarkerOutcome) (fs fs1 : FS) (tr : List Event)
    (tScene : Scene) (h : t.Scene = some tScene)
    (hr : generateMarker t videoFile scene sceneMarker o fs = some (fs1, tr)) (p : Path)
    (hp : p.isTmp = false) (hs : (fs p).isSome = true) : (fs1 p).isSome = true := by
  have h1 : ∀ f, p ≠ GetTmpPath f := by
    intro f hf
    rw [hf] at hp
    simp [GetTmpPath, Path.isTmp] at hp
  rw [generateMarker_eq t videoFile scene sceneMarker o fs tScene h] at hr
  simp only [Option.some.injEq, Prod.mk.injEq] at hr
  rw [← hr.1]
  split_ifs
  · exact imageStep_isSome _ _ _ _ _ _ _ (h1 _) (videoStep_isSome _ _ _ _ _ _ _ (h1 _) hs)
  · exact imageStep_isSome _ _ _ _ _ _ _ (h1 _) hs
  · exact videoStep_isSome _ _ _ _ _ _ _ (h1 _) hs
  · exact hs

/-- With a content-hash that is not empty, the clip exists when its file is
there. -/
theorem videoExists_eq (fs : FS) (sceneChecksum : String) (seconds : Int)
    (h : sceneChecksum ≠ "") :
    videoExists fs sceneChecksum seconds = (fs (GetStreamPath sceneChecksum seconds)).isSome := by
  simp [videoExists, h, FileExists]

/-- With a content-hash that is not empty, the preview image exists when its file
is there. -/
theorem imageExists_eq (fs : FS) (sceneChecksum : String) (seconds : Int)
    (h : sceneChecksum ≠ "") :
    imageExists fs sceneChecksum seconds =
      (fs (GetStreamPreviewImagePath sceneChecksum seconds)).isSome := by
  simp [imageExists, h, FileExists]

/-- Nothing exists under an empty content-hash. -/
theorem videoExists_empty (fs : FS) (seconds : Int) : videoExists fs "" seconds = false := by
  simp [videoExists]

/-- Nothing exists under an empty content-hash. -/
theorem imageExists_empty (fs : FS) (seconds : Int) : imageExists fs "" seconds = false := by
  simp [imageExists]

/-- `markerExists` is the conjunction of the two per-kind checks. -/
theorem markerExists_eq (fs : FS) (sceneChecksum : String) (seconds : Int) :
    markerExists fs sceneChecksum seconds =
      (videoExists fs sceneChecksum seconds && imageExists fs sceneChecksum seconds) := by
  unfold markerExists videoExists imageExists
  by_cases h : sceneChecksum = "" <;> simp [h]

/-- An artifact that exists before `generateMarker` exists after it. -/
theorem generateMarker_videoExists_mono (t : GenerateMarkersTask) (videoFile : VideoFile)
    (scene : Scene) (sceneMarker : SceneMarker) (o : MarkerOutcome) (fs fs1 : FS)
    (tr : List Event) (tScene : Scene) (h : t.Scene = some tScene)
    (hr : generateMarker t videoFile scene sceneMarker o fs = some (fs1, tr))
    (sceneChecksum : String) (seconds : Int)
    (he : videoExists fs sceneChecksum seconds = true) :
    videoExists fs1 sceneChecksum seconds = true := by
  by_cases hc : sceneChecksum = ""
  · rw [hc, videoExists_empty] at he
    cases he
  · rw [videoExists_eq _ _ _ hc] at he ⊢
    exact generateMarker_isSome t videoFile scene sceneMarker o fs fs1 tr tScene h hr _ rfl he

/-- An artifact that exists before `generateMarker` exists after it. -/
theorem generateMarker_imageExists_mono (t : GenerateMarkersTask) (videoFile : VideoFile)
    (scene : Scene) (sceneMarker : SceneMarker) (o : MarkerOutcome) (fs fs1 : FS)
    (tr : List Event) (tScene : Scene) (h : t.Scene = some tScene)
    (hr : generateMarker t videoFile scene sceneMarker o fs = some (fs1, tr))
    (sceneChecksum : String) (seconds : Int)
    (he : imageExists fs sceneChecksum seconds = true) :
    imageExists fs1 sceneChecksum seconds = true := by
  by_cases hc : sceneChecksum = ""
  · rw [hc, imageExists_empty] at he
    cases he
  · rw [imageExists_eq _ _ _ hc] at he ⊢
    exact generateMarker_isSome t videoFile scene sceneMarker o fs fs1 tr tScene h hr _ rfl he

/-- When every external call succeeds and the content-hash is not empty, both
artifacts of the marker exist after `generateMarker`. -/
theorem generateMarker_success_exists (t : GenerateMarkersTask) (videoFile : VideoFile)
    (scene : Scene) (sceneMarker : SceneMarker) (o : MarkerOutcome) (fs fs1 : FS)
    (tr : List Event) (tScene : Scene) (h : t.Scene = some tScene)
    (hh : tScene.GetHash t.fileNamingAlgorithm ≠ "") (hok : o.allSucceed = true)
    (hr : generateMarker t videoFile scene sceneMarker o fs = some (fs1, tr)) :
    videoExists fs1 (tScene.GetHash t.fileNamingAlgorithm) sceneMarker.Seconds = true ∧
      imageExists fs1 (tScene.GetHash t.fileNamingAlgorithm) sceneMarker.Seconds = true := by
  simp only [MarkerOutcome.allSucceed, Bool.and_eq_true] at hok
  obtain ⟨⟨⟨hve, hvm⟩, hie⟩, him⟩ := hok
  rw [generateMarker_eq t videoFile scene sceneMarker o fs tScene h] at hr
  simp only [Option.some.injEq, Prod.mk.injEq] at hr
  rw [videoExists_eq _ _ _ hh, imageExists_eq _ _ _ hh, ← hr.1]
  have hfv : ∀ fs0 : FS,
      (fs0 (GetStreamPath (tScene.GetHash t.fileNamingAlgorithm) sceneMarker.Seconds)).isSome
        = true →
      ((imageStep videoFile scene (tScene.GetHash t.fileNamingAlgorithm) sceneMarker.Seconds o
        fs0).1 (GetStreamPath (tScene.GetHash t.fileNamingAlgorithm)
          sceneMarker.Seconds)).isSome = true :=
    fun fs0 h0 => imageStep_isSome _ _ _ _ _ _ _ (by simp [GetStreamPath, GetTmpPath]) h0
  have hfi : (fs (GetStreamPreviewImagePath (tScene.GetHash t.fileNamingAlgorithm)
        sceneMarker.Seconds)).isSome = true →
      ((videoStep videoFile scene (tScene.GetHash t.fileNamingAlgorithm) sceneMarker.Seconds o
        fs).1 (GetStreamPreviewImagePath (tScene.GetHash t.fileNamingAlgorithm)
          sceneMarker.Seconds)).isSome = true :=
    fun h0 => videoStep_isSome _ _ _ _ _ _ _ (by simp [GetStreamPreviewImagePath, GetTmpPath]) h0
  by_cases hv : (t.Overwrite ||
      !videoExists fs (tScene.GetHash t.fileNamingAlgorithm) sceneMarker.Seconds) = true <;>
  by_cases hi : (t.Overwrite ||
      !imageExists fs (tScene.GetHash t.fileNamingAlgorithm) sceneMarker.Seconds) = true
  · simp only [hv, hi, if_true]
    exact ⟨hfv _ (videoStep_success _ _ _ _ _ _ hve hvm), imageStep_success _ _ _ _ _ _ hie him⟩
  · simp only [hv, hi, if_true, if_false]
    refine ⟨videoStep_success _ _ _ _ _ _ hve hvm, hfi ?_⟩
    rw [← imageExists_eq _ _ _ hh]
    simp at hi
    exact hi.2
  · simp only [hv, hi, if_true, if_false]
    refine ⟨hfv _ ?_, imageStep_success _ _ _ _ _ _ hie him⟩
    rw [← videoExists_eq _ _ _ hh]
    simp at hv
    exact hv.2
  · simp only [hv, hi, if_false]
    simp at hv hi
    constructor
    · rw [← videoExists_eq _ _ _ hh]
      exact hv.2
    · rw [← imageExists_eq _ _ _ hh]
      exact hi.2

/-- Without `Overwrite`, `generateMarker` on a marker whose two artifacts exist
makes no call and leaves the tree as it is. -/
theorem generateMarker_noop (t : GenerateMarkersTask) (videoFile : VideoFile)
    (scene : Scene) (sceneMarker : SceneMarker) (o : MarkerOutcome) (fs : FS)
    (tScene : Scene) (h : t.Scene = some tScene) (hov : t.Overwrite = false)
    (hv : videoExists fs (tScene.GetHash t.fileNamingAlgorithm) sceneMarker.Seconds = true)
    (hi : imageExists fs (tScene.GetHash t.fileNamingAlgorithm) sceneMarker.Seconds = true) :
    generateMarker t videoFile scene sceneMarker o fs = some (fs, []) := by
  rw [generateMarker_eq t videoFile scene sceneMarker o fs tScene h]
  simp [hov, hv, hi]

/-! ## The loop over the markers of a scene -/

/-- On a task with a scene the loop returns, with one list of calls for every
marker. -/
theorem markerLoop_total (t : GenerateMarkersTask) (videoFile : VideoFile) (scene : Scene)
    (o : Nat → MarkerOutcome) (tScene : Scene) (h : t.Scene = some tScene)
    (sceneMarkers : List SceneMarker) :
    ∀ (i : Nat) (fs : FS), ∃ fs1 trs,
      markerLoop t videoFile scene o i sceneMarkers fs = some (fs1, trs) ∧
        trs.length = sceneMarkers.length := by
  induction sceneMarkers with
  | nil => intro i fs; exact ⟨fs, [], rfl, rfl⟩
  | cons m rest ih =>
    intro i fs
    obtain ⟨fsa, tra, hm⟩ := generateMarker_total t videoFile scene m (o i) fs tScene h
    obtain ⟨fsb, trs, hl, hlen⟩ := ih (i + 1) fsa
    refine ⟨fsb, tra :: trs, ?_, by simp [hlen]⟩
    simp only [markerLoop, hm, hl]

/-- When every external call succeeds and the content-hash is not empty, the
artifacts of every marker of the list exist after the loop, and so does every
artifact that existed before it. -/
theorem markerLoop_success_exists (t : GenerateMarkersTask) (videoFile : VideoFile)
    (scene : Scene) (o : Nat → MarkerOutcome) (tScene : Scene) (h : t.Scene = some tScene)
    (hh : tScene.GetHash t.fileNamingAlgorithm ≠ "") (sceneMarkers : List SceneMarker) :
    ∀ (i : Nat) (fs fs1 : FS) (trs : List (List Event)),
      (∀ j, i ≤ j → j < i + sceneMarkers.length → (o j).allSucceed = true) →
      markerLoop t videoFile scene o i sceneMarkers fs = some (fs1, trs) →
      (∀ m ∈ sceneMarkers,
        videoExists fs1 (tScene.GetHash t.fileNamingAlgorithm) m.Seconds = true ∧
          imageExists fs1 (tScene.GetHash t.fileNamingAlgorithm) m.Seconds = true) ∧
      (∀ c s, videoExists fs c s = true → videoExists fs1 c s = true) ∧
      (∀ c s, imageExists fs c s = true → imageExists fs1 c s = true) := by
  induction sceneMarkers with
  | nil =>
    intro i fs fs1 trs _ hr
    simp only [markerLoop, Option.some.injEq, Prod.mk.injEq] at hr
    rw [← hr.1]
    exact ⟨by simp, fun _ _ hx => hx, fun _ _ hx => hx⟩
  | cons m rest ih =>
    intro i fs fs1 trs hok hr
    obtain ⟨fsa, tra, hm⟩ := generateMarker_total t videoFile scene m (o i) fs tScene h
    obtain ⟨fsb, trs2, hl, _⟩ := markerLoop_total t videoFile scene o tScene h rest (i + 1) fsa
    simp only [markerLoop, hm, hl, Option.some.injEq, Prod.mk.injEq] at hr
    have hfs : fsb = fs1 := hr.1
    subst hfs
    have hok2 : ∀ j, i + 1 ≤ j → j < i + 1 + rest.length → (o j).allSucceed = true := by
      intro j h1 h2
      apply hok j (by omega)
      simp only [List.length_cons]
      omega
    obtain ⟨hall, hvm, him⟩ := ih (i + 1) fsa fsb trs2 hok2 hl
    have hnow := generateMarker_success_exists t videoFile scene m (o i) fs fsa _ tScene h hh
      (hok i (Nat.le_refl i) (by simp)) hm
    refine ⟨?_, ?_, ?_⟩
    · intro m2 hm2
      rcases List.mem_cons.mp hm2 with rfl | hin
      · exact ⟨hvm _ _ hnow.1, him _ _ hnow.2⟩
      · exact hall m2 hin
    · intro c s0 hx
      exact hvm _ _ (generateMarker_videoExists_mono t videoFile scene m (o i) fs fsa _ tScene h
        hm c s0 hx)
    · intro c s0 hx
      exact him _ _ (generateMarker_imageExists_mono t videoFile scene m (o i) fs fsa _ tScene h
        hm c s0 hx)

/-- Without `Overwrite`, the loop over markers whose artifacts all exist makes
no call and leaves the tree as it is. -/
theorem markerLoop_noop (t : GenerateMarkersTask) (videoFile : VideoFile)
    (scene : Scene) (o : Nat → MarkerOutcome) (tScene : Scene) (h : t.Scene = some tScene)
    (hov : t.Overwrite = false) (fs : FS) (sceneMarkers : List SceneMarker)
    (hall : ∀ m ∈ sceneMarkers,
      videoExists fs (tScene.GetHash t.fileNamingAlgorithm) m.Seconds = true ∧
        imageExists fs (tScene.GetHash t.fileNamingAlgorithm) m.Seconds = true) :
    ∀ i : Nat, markerLoop t videoFile scene o i sceneMarkers fs =
      some (fs, List.replicate sceneMarkers.length []) := by
  induction sceneMarkers with
  | nil => intro i; rfl
  | cons m rest ih =>
    intro i
    have hm := hall m (List.mem_cons_self _ _)
    have hrest := ih (fun m2 hm2 => hall m2 (List.mem_cons_of_mem _ hm2)) (i + 1)
    simp only [markerLoop,
      generateMarker_noop t videoFile scene m (o i) fs tScene h hov hm.1 hm.2, hrest,
      List.length_cons, List.replicate_succ]

/-! ## Per-marker generation -/

/-- C4: on a task with a scene, `generateMarker` returns, and for each artifact
kind on its own it calls the encoder if and only if `Overwrite` is set or the
artifact of that kind does not exist in the tree it starts from; an artifact
exists exactly when the content-hash is not empty and the file is present at the
canonical path. -/
theorem generateMarker_encoder_iff (t : GenerateMarkersTask) (videoFile : VideoFile)
    (scene : Scene) (sceneMarker : SceneMarker) (o : MarkerOutcome) (fs : FS) (tScene : Scene)
    (h : t.Scene = some tScene) :
    ∃ fs1 tr, generateMarker t videoFile scene sceneMarker o fs = some (fs1, tr) ∧
      (tr.any Event.isVideoEncode = true ↔
        (t.Overwrite = true ∨
          videoExists fs (tScene.GetHash t.fileNamingAlgorithm) sceneMarker.Seconds = false)) ∧
      (tr.any Event.isImageEncode = true ↔
        (t.Overwrite = true ∨
          imageExists fs (tScene.GetHash t.fileNamingAlgorithm) sceneMarker.Seconds = false)) ∧
      (videoExists fs (tScene.GetHash t.fileNamingAlgorithm) sceneMarker.Seconds = true ↔
        (tScene.GetHash t.fileNamingAlgorithm ≠ "" ∧
          FileExists fs
            (GetStreamPath (tScene.GetHash t.fileNamingAlgorithm) sceneMarker.Seconds) = true)) ∧
      (imageExists fs (tScene.GetHash t.fileNamingAlgorithm) sceneMarker.Seconds = true ↔
        (tScene.GetHash t.fileNamingAlgorithm ≠ "" ∧
          FileExists fs
            (GetStreamPreviewImagePath (tScene.GetHash t.fileNamingAlgorithm)
              sceneMarker.Seconds) = true)) := by
  obtain ⟨fs1, htr⟩ := generateMarker_trace t videoFile scene sceneMarker o fs tScene h
  refine ⟨fs1, _, htr, ?_, ?_, ?_, ?_⟩
  · by_cases hv : (t.Overwrite ||
        !videoExists fs (tScene.GetHash t.fileNamingAlgorithm) sceneMarker.Seconds) = true <;>
    by_cases hi : (t.Overwrite ||
        !imageExists fs (tScene.GetHash t.fileNamingAlgorithm) sceneMarker.Seconds) = true <;>
    by_cases hs : o.video.succeeded = true <;>
    by_cases hs2 : o.image.succeeded = true <;>
    simp [hv, hi, hs, hs2, Event.isVideoEncode] <;>
    simpa using hv
  · by_cases hv : (t.Overwrite ||
        !videoExists fs (tScene.GetHash t.fileNamingAlgorithm) sceneMarker.Seconds) = true <;>
    by_cases hi : (t.Overwrite ||
        !imageExists fs (tScene.GetHash t.fileNamingAlgorithm) sceneMarker.Seconds) = true <;>
    by_cases hs : o.video.succeeded = true <;>
    by_cases hs2 : o.image.succeeded = true <;>
    simp [hv, hi, hs, hs2, Event.isImageEncode] <;>
    simpa using hi
  · unfold videoExists
    by_cases he : tScene.GetHash t.fileNamingAlgorithm = "" <;> simp [he]
  · unfold imageExists
    by_cases he : tScene.GetHash t.fileNamingAlgorithm = "" <;> simp [he]

/-- C10: on a task with a scene, when the encoder call for a kind fails,
`generateMarker` makes no move to the canonical path of that kind and the file
state at that canonical path is what it was; every move it makes comes right
after an encoder call that succeeded, from the temporary output path of that call
to the canonical path of the same kind. -/
theorem generateMarker_failed_encode_no_move (t : GenerateMarkersTask) (videoFile : VideoFile)
    (scene : Scene) (sceneMarker : SceneMarker) (o : MarkerOutcome) (fs : FS) (tScene : Scene)
    (h : t.Scene = some tScene) :
    ∃ fs1 tr, generateMarker t videoFile scene sceneMarker o fs = some (fs1, tr) ∧
      (o.video.succeeded = false →
        fs1 (GetStreamPath (tScene.GetHash t.fileNamingAlgorithm) sceneMarker.Seconds) =
            fs (GetStreamPath (tScene.GetHash t.fileNamingAlgorithm) sceneMarker.Seconds) ∧
          tr.any (Event.isMoveTo
            (GetStreamPath (tScene.GetHash t.fileNamingAlgorithm) sceneMarker.Seconds)) = false) ∧
      (o.image.succeeded = false →
        fs1 (GetStreamPreviewImagePath (tScene.GetHash t.fileNamingAlgorithm)
              sceneMarker.Seconds) =
            fs (GetStreamPreviewImagePath (tScene.GetHash t.fileNamingAlgorithm)
              sceneMarker.Seconds) ∧
          tr.any (Event.isMoveTo
            (GetStreamPreviewImagePath (tScene.GetHash t.fileNamingAlgorithm)
              sceneMarker.Seconds)) = false) ∧
      (∀ src dst, Event.SafeMove src dst ∈ tr →
        (o.video.succeeded = true ∧ src = GetTmpPath (Itoa sceneMarker.Seconds ++ ".mp4") ∧
          dst = GetStreamPath (tScene.GetHash t.fileNamingAlgorithm) sceneMarker.Seconds ∧
          [Event.SceneMarkerVideo videoFile
              { ScenePath := scene.Path, Seconds := sceneMarker.Seconds, Width := 640,
                OutputPath := src },
            Event.SafeMove src dst] <:+: tr) ∨
        (o.image.succeeded = true ∧ src = GetTmpPath (Itoa sceneMarker.Seconds ++ ".webp") ∧
          dst = GetStreamPreviewImagePath (tScene.GetHash t.fileNamingAlgorithm)
            sceneMarker.Seconds ∧
          [Event.SceneMarkerImage videoFile
              { ScenePath := scene.Path, Seconds := sceneMarker.Seconds, Width := 640,
                OutputPath := src },
            Event.SafeMove src dst] <:+: tr)) := by
  obtain ⟨fs1, htr⟩ := generateMarker_trace t videoFile scene sceneMarker o fs tScene h
  have hfs := htr
  rw [generateMarker_eq t videoFile scene sceneMarker o fs tScene h] at hfs
  simp only [Option.some.injEq, Prod.mk.injEq] at hfs
  have hfs1 := hfs.1
  clear hfs
  refine ⟨fs1, _, htr, ?_, ?_, ?_⟩
  · intro hf
    constructor
    · rw [← hfs1]
      split_ifs
      · rw [imageStep_frame _ _ _ _ _ _ _ (by simp [GetStreamPath, GetTmpPath])
          (by simp [GetStreamPath, GetStreamPreviewImagePath]),
          videoStep_failed_frame _ _ _ _ _ _ _ hf (by simp [GetStreamPath, GetTmpPath])]
      · rw [imageStep_frame _ _ _ _ _ _ _ (by simp [GetStreamPath, GetTmpPath])
          (by simp [GetStreamPath, GetStreamPreviewImagePath])]
      · rw [videoStep_failed_frame _ _ _ _ _ _ _ hf (by simp [GetStreamPath, GetTmpPath])]
      · rfl
    · split_ifs <;>
        simp_all [Event.isMoveTo, GetStreamPath, GetStreamPreviewImagePath]
  · intro hf
    constructor
    · rw [← hfs1]
      split_ifs
      · rw [imageStep_failed_frame _ _ _ _ _ _ _ hf
            (by simp [GetStreamPreviewImagePath, GetTmpPath]),
          videoStep_frame _ _ _ _ _ _ _ (by simp [GetStreamPreviewImagePath, GetTmpPath])
            (by simp [GetStreamPath, GetStreamPreviewImagePath])]
      · rw [imageStep_failed_frame _ _ _ _ _ _ _ hf
            (by simp [GetStreamPreviewImagePath, GetTmpPath])]
      · rw [videoStep_frame _ _ _ _ _ _ _ (by simp [GetStreamPreviewImagePath, GetTmpPath])
            (by simp [GetStreamPath, GetStreamPreviewImagePath])]
      · rfl
    · split_ifs <;>
        simp_all [Event.isMoveTo, GetStreamPath, GetStreamPreviewImagePath]
  · intro src dst hmem
    rcases List.mem_append.mp hmem with hv | hi
    · left
      split_ifs at hv with h1 h2
      · simp only [List.mem_cons, List.mem_singleton, List.not_mem_nil, or_false,
          false_or, Event.SafeMove.injEq, reduceCtorEq] at hv
        obtain ⟨rfl, rfl⟩ := hv
        refine ⟨h2, rfl, rfl, ?_⟩
        rw [if_pos h1, if_pos h2]
        exact (List.prefix_append _ _).isInfix
      · simp at hv
      · simp at hv
    · right
      split_ifs at hi with h1 h2
      · simp only [List.mem_cons, List.mem_singleton, List.not_mem_nil, or_false,
          false_or, Event.SafeMove.injEq, reduceCtorEq] at hi
        obtain ⟨rfl, rfl⟩ := hi
        refine ⟨h2, rfl, rfl, ?_⟩
        rw [if_pos h1, if_pos h2]
        exact (List.suffix_append _ _).isInfix
      · simp at hi
      · simp at hi

/-- C9, the claim fails: two tasks on scenes with different content-hashes, each
with a marker at second 5, hand the encoder the same temporary paths. -/
theorem tmp_path_shared_between_tasks :
    decide (exScene.GetHash .MD5 = exSceneB.GetHash .MD5) = false ∧
      (generateMarker exTask { Path := "/media/a.mp4" } exScene exMarker exAllOk emptyFS).map
          (fun r => encoderOutputPaths r.2) =
        some [Path.tmp "5.mp4", Path.tmp "5.webp"] ∧
      (generateMarker exTaskB { Path := "/media/b.mp4" } exSceneB exMarkerB exAllOk emptyFS).map
          (fun r => encoderOutputPaths r.2) =
        some [Path.tmp "5.mp4", Path.tmp "5.webp"] := by
  refine ⟨by decide, rfl, rfl⟩

/-- C9, amended: on a task with a scene the temporary output path handed to the
encoder is `GetTmpPath (Itoa seconds ++ ".mp4")` for the clip and
`GetTmpPath (Itoa seconds ++ ".webp")` for the preview image; it is fixed by the
whole seconds of the marker and the kind, whatever the task and the content-hash
of its scene. -/
theorem generateMarker_tmp_path (t : GenerateMarkersTask) (videoFile : VideoFile)
    (scene : Scene) (sceneMarker : SceneMarker) (o : MarkerOutcome) (fs : FS) (tScene : Scene)
    (h : t.Scene = some tScene) :
    ∃ fs1 tr, generateMarker t videoFile scene sceneMarker o fs = some (fs1, tr) ∧
      ∀ vf options,
        (Event.SceneMarkerVideo vf options ∈ tr →
          options.OutputPath = GetTmpPath (Itoa sceneMarker.Seconds ++ ".mp4")) ∧
        (Event.SceneMarkerImage vf options ∈ tr →
          options.OutputPath = GetTmpPath (Itoa sceneMarker.Seconds ++ ".webp")) := by
  obtain ⟨fs1, htr⟩ := generateMarker_trace t videoFile scene sceneMarker o fs tScene h
  refine ⟨fs1, _, htr, ?_⟩
  intro vf options
  constructor
  · intro hmem
    split_ifs at hmem <;> simp at hmem <;> simp [hmem.2]
  · intro hmem
    split_ifs at hmem <;> simp at hmem <;> simp [hmem.2]

/-- Witness for `generateMarker_tmp_path`, on the example task. -/
theorem generateMarker_tmp_path_witness :
    exTask.Scene = some exScene ∧
      ∃ fs1 tr,
        generateMarker exTask { Path := "/media/a.mp4" } exScene exMarker exAllOk emptyFS =
          some (fs1, tr) ∧
        ∀ vf options,
          (Event.SceneMarkerVideo vf options ∈ tr →
            options.OutputPath = GetTmpPath (Itoa exMarker.Seconds ++ ".mp4")) ∧
          (Event.SceneMarkerImage vf options ∈ tr →
            options.OutputPath = GetTmpPath (Itoa exMarker.Seconds ++ ".webp")) :=
  ⟨rfl, generateMarker_tmp_path exTask { Path := "/media/a.mp4" } exScene exMarker exAllOk
    emptyFS exScene rfl⟩

/-! ## The task as a whole -/

/-- In marker mode, once the lookup of the owning scene has returned a scene,
`Start` stops on the nil dereference of `t.Scene`, whatever the inputs. -/
theorem Start_marker_mode_none (w : World) (t : GenerateMarkersTask) (o : Nat → MarkerOutcome)
    (om : MarkerOutcome) (fs : FS) (marker : SceneMarker) (scene : Scene)
    (hs : t.Scene = none) (hm : t.Marker = some marker)
    (hf : w.Find marker.SceneID = .ok (some scene)) : Start w t o om fs = none := by
  unfold Start
  simp [hs, hm, hf]

/-- C6, the code fails: in marker mode (a marker, no scene), with the lookup of
the owning scene returning a scene, `Start` does not run to completion: it stops
on the nil dereference of `t.Scene` and generates nothing. -/
theorem Start_marker_mode_nil_dereference :
    exWorld.Find exMarker.SceneID = .ok (some exScene) ∧
      Start exWorld exMarkerTask (fun _ => exAllOk) exAllOk emptyFS = none :=
  ⟨rfl, rfl⟩

/-- C7: when in marker mode the lookup of the owning scene fails or finds no
scene, or in scene mode `FindBySceneID` fails, `Start` returns having made no
external call at all (no encoder invocation, no move) and the artifact tree is
the one it started from; the same holds of `generateSceneMarkers` in scene
mode. -/
theorem Start_metadata_error_no_writes (w : World) (t : GenerateMarkersTask)
    (o : Nat → MarkerOutcome) (om : MarkerOutcome) (fs : FS)
    (h : (t.Scene = none ∧ ∃ marker, t.Marker = some marker ∧
            ((∃ e, w.Find marker.SceneID = .error e) ∨ w.Find marker.SceneID = .ok none)) ∨
         (∃ scene, t.Scene = some scene ∧ t.Marker = none ∧
            ∃ e, w.FindBySceneID scene.ID = .error e)) :
    Start w t o om fs = some (fs, []) ∧
      (∀ scene, t.Scene = some scene → generateSceneMarkers w t o fs = some (fs, [])) := by
  rcases h with ⟨hs, marker, hm, hfind⟩ | ⟨scene, hs, hm, e, he⟩
  · constructor
    · unfold Start
      rw [hs, hm]
      rcases hfind with ⟨e, he⟩ | hnone
      · simp [he]
      · simp [hnone]
    · intro scene hsc
      rw [hs] at hsc
      cases hsc
  · have hg : generateSceneMarkers w t o fs = some (fs, []) := by
      unfold generateSceneMarkers
      rw [hs]
      simp [he]
    constructor
    · unfold Start
      simp only [hs, hm, hg]
    · intro _ _
      exact hg

/-- Witness for `Start_metadata_error_no_writes`: scene mode with the store
down. -/
theorem Start_metadata_error_no_writes_witness :
    Start exWorldDown exTask (fun _ => exAllOk) exAllOk emptyFS = some (emptyFS, []) ∧
      (∀ scene, exTask.Scene = some scene →
        generateSceneMarkers exWorldDown exTask (fun _ => exAllOk) emptyFS =
          some (emptyFS, [])) :=
  Start_metadata_error_no_writes exWorldDown exTask (fun _ => exAllOk) exAllOk emptyFS
    (Or.inr ⟨exScene, rfl, rfl, "database is locked", rfl⟩)

theorem flatten_replicate_nil (n : Nat) :
    (List.replicate n ([] : List Event)).flatten = [] := by
  induction n with
  | zero => rfl
  | succ k ih => simp [List.replicate_succ, ih]

/-- C3, the claim fails: on a scene whose content-hash is empty nothing ever
counts as existing, so after a first run in which every call succeeds a second
run without `Overwrite` calls the encoder again, twice for the one marker. -/
theorem second_run_encodes_again_without_hash :
    exTaskNoHash.Overwrite = false ∧ exAllOk.allSucceed = true ∧
      (generateSceneMarkers exWorld exTaskNoHash (fun _ => exAllOk) emptyFS).map
        (fun r => (encoderInvocations r.2, moves r.2)) = some (2, 2) ∧
      ((generateSceneMarkers exWorld exTaskNoHash (fun _ => exAllOk) emptyFS).bind
        (fun r => (generateSceneMarkers exWorld exTaskNoHash (fun _ => exAllOk) r.1).map
          (fun r2 => (encoderInvocations r2.2, moves r2.2)))) = some (2, 2) :=
  ⟨rfl, rfl, rfl, rfl⟩

/-- C3, amended: for a scene whose content-hash is not empty, when a run of
`generateSceneMarkers` without `Overwrite` has every encoder call and every move
succeed, a second run without `Overwrite` on the resulting tree (same lookups,
any outcomes) makes no encoder invocation and no move and leaves the tree as the
first run left it. -/
theorem generateSceneMarkers_idempotent (w : World) (t : GenerateMarkersTask)
    (o1 o2 : Nat → MarkerOutcome) (fs : FS) (tScene : Scene)
    (h : t.Scene = some tScene) (hov : t.Overwrite = false)
    (hh : tScene.GetHash t.fileNamingAlgorithm ≠ "")
    (hok : ∀ i, i < (markersFound w tScene).length → (o1 i).allSucceed = true) :
    ∃ fs1 tr1, generateSceneMarkers w t o1 fs = some (fs1, tr1) ∧
      ∃ tr2, generateSceneMarkers w t o2 fs1 = some (fs1, tr2) ∧
        encoderInvocations tr2 = 0 ∧ moves tr2 = 0 := by
  unfold generateSceneMarkers
  rw [h]
  simp only
  cases hl : w.FindBySceneID tScene.ID with
  | error e => exact ⟨fs, [], rfl, [], rfl, rfl, rfl⟩
  | ok sceneMarkers =>
    simp only
    by_cases hlen : sceneMarkers.length = 0
    · simp only [hlen, if_true]
      exact ⟨fs, [], rfl, [], rfl, rfl, rfl⟩
    · simp only [hlen, if_false]
      cases hp : w.NewVideoFile tScene.Path with
      | error e => exact ⟨fs, [], rfl, [], rfl, rfl, rfl⟩
      | ok videoFile =>
        simp only
        obtain ⟨fs1, trs, hrun, _⟩ :=
          markerLoop_total t videoFile tScene o1 tScene h sceneMarkers 0 fs
        have hok2 : ∀ j, 0 ≤ j → j < 0 + sceneMarkers.length → (o1 j).allSucceed = true := by
          intro j _ hj
          apply hok j
          simp only [markersFound, hl]
          omega
        have hall := (markerLoop_success_exists t videoFile tScene o1 tScene h hh sceneMarkers
          0 fs fs1 trs hok2 hrun).1
        have hsecond := markerLoop_noop t videoFile tScene o2 tScene h hov fs1 sceneMarkers hall 0
        refine ⟨fs1, _, by rw [hrun], _, by rw [hsecond], ?_, ?_⟩
        · simp [encoderInvocations, flatten_replicate_nil, Event.isEncode]
        · simp [moves, flatten_replicate_nil, Event.isMove]

/-- Witness for `generateSceneMarkers_idempotent`, on the example scene. -/
theorem generateSceneMarkers_idempotent_witness :
    ∃ fs1 tr1, generateSceneMarkers exWorld exTask (fun _ => exAllOk) emptyFS = some (fs1, tr1) ∧
      ∃ tr2, generateSceneMarkers exWorld exTask (fun _ => exVideoFails) fs1 = some (fs1, tr2) ∧
        encoderInvocations tr2 = 0 ∧ moves tr2 = 0 :=
  generateSceneMarkers_idempotent exWorld exTask (fun _ => exAllOk) (fun _ => exVideoFails)
    emptyFS exScene rfl rfl (by decide) (fun _ _ => rfl)

/-! ## The count of outstanding markers -/

theorem encoderInvocations_append (a b : List Event) :
    encoderInvocations (a ++ b) = encoderInvocations a + encoderInvocations b := by
  simp [encoderInvocations, List.filter_append]

/-- The counting loop of `isMarkerNeeded` is the length of a filter. -/
theorem foldl_count (p : SceneMarker → Bool) (sceneMarkers : List SceneMarker) :
    ∀ n : Nat,
      sceneMarkers.foldl (fun markers sceneMarker =>
        if p sceneMarker = true then markers + 1 else markers) n =
      n + (sceneMarkers.filter p).length := by
  induction sceneMarkers with
  | nil => intro n; simp
  | cons m rest ih =>
    intro n
    simp only [List.foldl_cons, List.filter_cons]
    by_cases hp : p m = true
    · simp only [hp, if_true, ih, List.length_cons]
      omega
    · simp only [hp, if_false, ih]
      rfl

/-- Number of encoder invocations of `generateMarker` on a task with a scene. -/
theorem markerInvocations_eq (t : GenerateMarkersTask) (videoFile : VideoFile) (scene : Scene)
    (sceneMarker : SceneMarker) (o : MarkerOutcome) (fs : FS) (tScene : Scene)
    (h : t.Scene = some tScene) :
    markerInvocations t videoFile scene sceneMarker o fs =
      (if (t.Overwrite ||
          !videoExists fs (tScene.GetHash t.fileNamingAlgorithm) sceneMarker.Seconds) = true
        then 1 else 0) +
      (if (t.Overwrite ||
          !imageExists fs (tScene.GetHash t.fileNamingAlgorithm) sceneMarker.Seconds) = true
        then 1 else 0) := by
  obtain ⟨fs1, htr⟩ := generateMarker_trace t videoFile scene sceneMarker o fs tScene h
  unfold markerInvocations
  rw [htr]
  simp only [encoderInvocations_append]
  congr 1
  · split_ifs <;> simp [encoderInvocations, Event.isEncode]
  · split_ifs <;> simp [encoderInvocations, Event.isEncode]

/-- The test of `isMarkerNeeded` holds of a marker exactly when `generateMarker`
on the same tree calls the encoder at least once for it. -/
theorem needed_iff_invocations (t : GenerateMarkersTask) (videoFile : VideoFile) (scene : Scene)
    (sceneMarker : SceneMarker) (o : MarkerOutcome) (fs : FS) (tScene : Scene)
    (h : t.Scene = some tScene) :
    (t.Overwrite ||
        !markerExists fs (tScene.GetHash t.fileNamingAlgorithm) sceneMarker.Seconds) =
      decide (0 < markerInvocations t videoFile scene sceneMarker o fs) := by
  rw [markerInvocations_eq t videoFile scene sceneMarker o fs tScene h, markerExists_eq]
  cases t.Overwrite <;>
    cases videoExists fs (tScene.GetHash t.fileNamingAlgorithm) sceneMarker.Seconds <;>
    cases imageExists fs (tScene.GetHash t.fileNamingAlgorithm) sceneMarker.Seconds <;>
    rfl

/-- The loop started on a tree `fs0` that has every artifact of `fs` makes at
most two encoder invocations for every marker that `isMarkerNeeded` counts on
`fs`, and none for the others. -/
theorem markerLoop_invocations_le (t : GenerateMarkersTask) (videoFile : VideoFile)
    (scene : Scene) (o : Nat → MarkerOutcome) (tScene : Scene) (h : t.Scene = some tScene)
    (fs : FS) (sceneMarkers : List SceneMarker) :
    ∀ (i : Nat) (fs0 fs1 : FS) (trs : List (List Event)),
      (∀ c s, videoExists fs c s = true → videoExists fs0 c s = true) →
      (∀ c s, imageExists fs c s = true → imageExists fs0 c s = true) →
      markerLoop t videoFile scene o i sceneMarkers fs0 = some (fs1, trs) →
      encoderInvocations trs.flatten ≤
        2 * (sceneMarkers.filter (fun m =>
          t.Overwrite ||
            !markerExists fs (tScene.GetHash t.fileNamingAlgorithm) m.Seconds)).length := by
  induction sceneMarkers with
  | nil =>
    intro i fs0 fs1 trs _ _ hr
    simp only [markerLoop, Option.some.injEq, Prod.mk.injEq] at hr
    rw [← hr.2]
    simp [encoderInvocations]
  | cons m rest ih =>
    intro i fs0 fs1 trs hv hi hr
    obtain ⟨fsa, tra, hm⟩ := generateMarker_total t videoFile scene m (o i) fs0 tScene h
    obtain ⟨fsb, trs2, hl, _⟩ := markerLoop_total t videoFile scene o tScene h rest (i + 1) fsa
    simp only [markerLoop, hm, hl, Option.some.injEq, Prod.mk.injEq] at hr
    rw [← hr.2]
    have hrest := ih (i + 1) fsa fsb trs2
      (fun c s hx => generateMarker_videoExists_mono t videoFile scene m (o i) fs0 fsa tra
        tScene h hm c s (hv c s hx))
      (fun c s hx => generateMarker_imageExists_mono t videoFile scene m (o i) fs0 fsa tra
        tScene h hm c s (hi c s hx)) hl
    have hcount : encoderInvocations tra = markerInvocations t videoFile scene m (o i) fs0 := by
      simp [markerInvocations, hm]
    have hhead : markerInvocations t videoFile scene m (o i) fs0 ≤
        2 * (if (t.Overwrite ||
          !markerExists fs (tScene.GetHash t.fileNamingAlgorithm) m.Seconds) = true
          then 1 else 0) := by
      rw [markerInvocations_eq t videoFile scene m (o i) fs0 tScene h, markerExists_eq]
      have hv1 := hv (tScene.GetHash t.fileNamingAlgorithm) m.Seconds
      have hi1 := hi (tScene.GetHash t.fileNamingAlgorithm) m.Seconds
      revert hv1 hi1
      cases t.Overwrite <;>
        cases videoExists fs (tScene.GetHash t.fileNamingAlgorithm) m.Seconds <;>
        cases imageExists fs (tScene.GetHash t.fileNamingAlgorithm) m.Seconds <;>
        cases videoExists fs0 (tScene.GetHash t.fileNamingAlgorithm) m.Seconds <;>
        cases imageExists fs0 (tScene.GetHash t.fileNamingAlgorithm) m.Seconds <;>
        intro hv1 hi1 <;>
        simp at hv1 hi1 ⊢
    rw [List.flatten_cons, encoderInvocations_append, hcount]
    by_cases hn : (t.Overwrite ||
        !markerExists fs (tScene.GetHash t.fileNamingAlgorithm) m.Seconds) = true
    · rw [List.filter_cons, if_pos hn, List.length_cons]
      rw [if_pos hn] at hhead
      omega
    · rw [List.filter_cons, if_neg hn]
      rw [if_neg hn] at hhead
      omega

/-- C1, the claim fails: with `Overwrite` set and one marker, `isMarkerNeeded`
returns 1 and the run that follows calls the encoder twice, once for the clip
and once for the preview image. -/
theorem isMarkerNeeded_counts_one_encoder_runs_twice :
    isMarkerNeeded exWorld exTaskOverwrite emptyFS = some 1 ∧
      (generateSceneMarkers exWorld exTaskOverwrite (fun _ => exAllOk) emptyFS).map
        (fun r => encoderInvocations r.2) = some 2 :=
  ⟨rfl, rfl⟩

/-- C1, amended: in scene mode `isMarkerNeeded` returns the number of markers of
the list for which `generateMarker`, run on the tree as it is before generation,
calls the encoder at least once (`Overwrite` set, or the clip or the preview
image missing); it counts markers, not (marker, kind) pairs.  The run of
`generateSceneMarkers` that follows returns and makes at most twice that many
encoder invocations. -/
theorem isMarkerNeeded_counts_markers (w : World) (t : GenerateMarkersTask)
    (o : Nat → MarkerOutcome) (fs : FS) (tScene : Scene) (videoFile : VideoFile)
    (om : MarkerOutcome) (h : t.Scene = some tScene) :
    ∃ n fs1 tr, isMarkerNeeded w t fs = some n ∧
      generateSceneMarkers w t o fs = some (fs1, tr) ∧
      n = ((markersFound w tScene).filter (fun m =>
            decide (0 < markerInvocations t videoFile tScene m om fs))).length ∧
      encoderInvocations tr ≤ 2 * n := by
  have hfilter : ∀ sceneMarkers : List SceneMarker,
      sceneMarkers.filter (fun m =>
        t.Overwrite || !markerExists fs (tScene.GetHash t.fileNamingAlgorithm) m.Seconds) =
      sceneMarkers.filter (fun m =>
        decide (0 < markerInvocations t videoFile tScene m om fs)) := by
    intro sceneMarkers
    congr 1
    funext m
    exact needed_iff_invocations t videoFile tScene m om fs tScene h
  unfold isMarkerNeeded generateSceneMarkers markersFound
  rw [h]
  simp only
  cases hl : w.FindBySceneID tScene.ID with
  | error e => exact ⟨0, fs, [], rfl, rfl, rfl, by simp [encoderInvocations]⟩
  | ok sceneMarkers =>
    simp only
    by_cases hlen : sceneMarkers.length = 0
    · simp only [hlen, if_true]
      have hnil : sceneMarkers = [] := List.length_eq_zero.mp hlen
      exact ⟨0, fs, [], rfl, rfl, by simp [hnil], by simp [encoderInvocations]⟩
    · simp only [hlen, if_false]
      have hcount := foldl_count (fun m =>
        t.Overwrite || !markerExists fs (tScene.GetHash t.fileNamingAlgorithm) m.Seconds)
        sceneMarkers 0
      simp only [Nat.zero_add] at hcount
      cases hp : w.NewVideoFile tScene.Path with
      | error e =>
        refine ⟨_, fs, [], rfl, rfl, ?_, by simp [encoderInvocations]⟩
        rw [← hfilter]
        exact hcount
      | ok vf =>
        simp only
        obtain ⟨fs1, trs, hrun, _⟩ :=
          markerLoop_total t vf tScene o tScene h sceneMarkers 0 fs
        have hle := markerLoop_invocations_le t vf tScene o tScene h fs sceneMarkers 0 fs fs1 trs
          (fun _ _ hx => hx) (fun _ _ hx => hx) hrun
        refine ⟨_, fs1, _, rfl, by rw [hrun], ?_, ?_⟩
        · rw [← hfilter]
          exact hcount
        · rw [hcount]
          simpa [encoderInvocations, Event.isEncode] using hle

/-- Witness for `isMarkerNeeded_counts_markers`, on the example task. -/
theorem isMarkerNeeded_counts_markers_witness :
    ∃ n fs1 tr, isMarkerNeeded exWorld exTaskOverwrite emptyFS = some n ∧
      generateSceneMarkers exWorld exTaskOverwrite (fun _ => exAllOk) emptyFS = some (fs1, tr) ∧
      n = ((markersFound exWorld exScene).filter (fun m =>
            decide (0 < markerInvocations exTaskOverwrite { Path := "/media/a.mp4" } exScene m
              exAllOk emptyFS))).length ∧
      encoderInvocations tr ≤ 2 * n :=
  isMarkerNeeded_counts_markers exWorld exTaskOverwrite (fun _ => exAllOk) emptyFS exScene
    { Path := "/media/a.mp4" } exAllOk rfl

/-- Witness for `generateMarker_encoder_iff`, on the example task. -/
theorem generateMarker_encoder_iff_witness :
    ∃ fs1 tr,
      generateMarker exTask { Path := "/media/a.mp4" } exScene exMarker exVideoFails emptyFS =
        some (fs1, tr) ∧
      (tr.any Event.isVideoEncode = true ↔
        (exTask.Overwrite = true ∨
          videoExists emptyFS (exScene.GetHash exTask.fileNamingAlgorithm) exMarker.Seconds
            = false)) ∧
      (tr.any Event.isImageEncode = true ↔
        (exTask.Overwrite = true ∨
          imageExists emptyFS (exScene.GetHash exTask.fileNamingAlgorithm) exMarker.Seconds
            = false)) ∧
      (videoExists emptyFS (exScene.GetHash exTask.fileNamingAlgorithm) exMarker.Seconds = true ↔
        (exScene.GetHash exTask.fileNamingAlgorithm ≠ "" ∧
          FileExists emptyFS
            (GetStreamPath (exScene.GetHash exTask.fileNamingAlgorithm) exMarker.Seconds)
              = true)) ∧
      (imageExists emptyFS (exScene.GetHash exTask.fileNamingAlgorithm) exMarker.Seconds = true ↔
        (exScene.GetHash exTask.fileNamingAlgorithm ≠ "" ∧
          FileExists emptyFS
            (GetStreamPreviewImagePath (exScene.GetHash exTask.fileNamingAlgorithm)
              exMarker.Seconds) = true)) :=
  generateMarker_encoder_iff exTask { Path := "/media/a.mp4" } exScene exMarker exVideoFails
    emptyFS exScene rfl

/-- Witness for `generateMarker_failed_encode_no_move`: the clip encode fails, the
tree has no clip after the call and the only move is that of the preview
image. -/
theorem generateMarker_failed_encode_no_move_witness :
    exVideoFails.video.succeeded = false ∧
      ∃ fs1 tr,
        generateMarker exTask { Path := "/media/a.mp4" } exScene exMarker exVideoFails emptyFS =
          some (fs1, tr) ∧
        fs1 (GetStreamPath "abc" 5) = none ∧
        tr.any (Event.isMoveTo (GetStreamPath "abc" 5)) = false := by
  refine ⟨rfl, ?_⟩
  obtain ⟨fs1, tr, hr, hv, _, _⟩ :=
    generateMarker_failed_encode_no_move exTask { Path := "/media/a.mp4" } exScene exMarker
      exVideoFails emptyFS exScene rfl
  exact ⟨fs1, tr, hr, (hv rfl).1, (hv rfl).2⟩

/-! ## Isolation of failures -/

/-- Whether the clip is at its canonical path after the clip step. -/
theorem videoStep_canonical_isSome (videoFile : VideoFile) (scene : Scene)
    (sceneHash : String) (seconds : Int) (o : MarkerOutcome) (fs : FS) :
    ((videoStep videoFile scene sceneHash seconds o fs).1
        (GetStreamPath sceneHash seconds)).isSome =
      ((o.video.succeeded && o.videoMove) ||
        (fs (GetStreamPath sceneHash seconds)).isSome) := by
  unfold videoStep
  cases hv : o.video with
  | ok c =>
    cases hm : o.videoMove <;>
      simp [EncodeResult.succeeded, SafeMove, EncodeResult.apply, FS.write, GetStreamPath,
        GetTmpPath]
  | failed l =>
    cases l <;>
      simp [EncodeResult.succeeded, EncodeResult.apply, FS.write, GetStreamPath, GetTmpPath]

/-- Whether the preview image is at its canonical path after the preview-image
step. -/
theorem imageStep_canonical_isSome (videoFile : VideoFile) (scene : Scene)
    (sceneHash : String) (seconds : Int) (o : MarkerOutcome) (fs : FS) :
    ((imageStep videoFile scene sceneHash seconds o fs).1
        (GetStreamPreviewImagePath sceneHash seconds)).isSome =
      ((o.image.succeeded && o.imageMove) ||
        (fs (GetStreamPreviewImagePath sceneHash seconds)).isSome) := by
  unfold imageStep
  cases hv : o.image with
  | ok c =>
    cases hm : o.imageMove <;>
      simp [EncodeResult.succeeded, SafeMove, EncodeResult.apply, FS.write,
        GetStreamPreviewImagePath, GetTmpPath]
  | failed l =>
    cases l <;>
      simp [EncodeResult.succeeded, EncodeResult.apply, FS.write, GetStreamPreviewImagePath,
        GetTmpPath]

/-- Two calls of `generateMarker` for the same marker, on trees that agree on
whether the artifact of kind `k` is at its canonical path and with the same
outcome for the calls of kind `k`, make the same calls of kind `k` and agree on
that canonical path afterwards, whatever the calls of the other kind do. -/
theorem generateMarker_kind_agree (t : GenerateMarkersTask) (videoFile : VideoFile)
    (scene : Scene) (sceneMarker : SceneMarker) (oA oB : MarkerOutcome) (fsA fsB fsA1 fsB1 : FS)
    (trA trB : List Event) (tScene : Scene) (h : t.Scene = some tScene) (k : Kind)
    (hR : (fsA (canonicalPath (tScene.GetHash t.fileNamingAlgorithm) sceneMarker.Seconds k)).isSome
      = (fsB (canonicalPath (tScene.GetHash t.fileNamingAlgorithm) sceneMarker.Seconds k)).isSome)
    (hag : oA.ofKind k = oB.ofKind k)
    (hrA : generateMarker t videoFile scene sceneMarker oA fsA = some (fsA1, trA))
    (hrB : generateMarker t videoFile scene sceneMarker oB fsB = some (fsB1, trB)) :
    kindEvents k trA = kindEvents k trB ∧
      (fsA1 (canonicalPath (tScene.GetHash t.fileNamingAlgorithm) sceneMarker.Seconds k)).isSome
        = (fsB1
          (canonicalPath (tScene.GetHash t.fileNamingAlgorithm) sceneMarker.Seconds k)).isSome := by
  obtain ⟨fa, htA⟩ := generateMarker_trace t videoFile scene sceneMarker oA fsA tScene h
  obtain ⟨fb, htB⟩ := generateMarker_trace t videoFile scene sceneMarker oB fsB tScene h
  rw [hrA] at htA
  rw [hrB] at htB
  simp only [Option.some.injEq, Prod.mk.injEq] at htA htB
  rw [generateMarker_eq t videoFile scene sceneMarker oA fsA tScene h] at hrA
  rw [generateMarker_eq t videoFile scene sceneMarker oB fsB tScene h] at hrB
  simp only [Option.some.injEq, Prod.mk.injEq] at hrA hrB
  rw [htA.2, htB.2, ← hrA.1, ← hrB.1]
  clear htA htB hrA hrB
  cases k with
  | clip =>
    simp only [canonicalPath] at hR ⊢
    simp only [MarkerOutcome.ofKind, Prod.mk.injEq] at hag
    have hex : videoExists fsA (tScene.GetHash t.fileNamingAlgorithm) sceneMarker.Seconds =
        videoExists fsB (tScene.GetHash t.fileNamingAlgorithm) sceneMarker.Seconds := by
      unfold videoExists FileExists
      by_cases hc : tScene.GetHash t.fileNamingAlgorithm = "" <;> simp [hc, hR]
    have hfr : ∀ (o : MarkerOutcome) (fs0 : FS),
        (imageStep videoFile scene (tScene.GetHash t.fileNamingAlgorithm) sceneMarker.Seconds o
          fs0).1 (GetStreamPath (tScene.GetHash t.fileNamingAlgorithm) sceneMarker.Seconds) =
        fs0 (GetStreamPath (tScene.GetHash t.fileNamingAlgorithm) sceneMarker.Seconds) :=
      fun o fs0 => imageStep_frame _ _ _ _ _ _ _ (by simp [GetStreamPath, GetTmpPath])
        (by simp [GetStreamPath, GetStreamPreviewImagePath])
    constructor
    · rw [hex, hag.1]
      split_ifs <;>
        simp [kindEvents, Event.kindOf, GetStreamPath, GetStreamPreviewImagePath]
    · rw [hex]
      split_ifs <;>
        simp only [hfr, videoStep_canonical_isSome, hag.1, hag.2, hR]
  | previewImage =>
    simp only [canonicalPath] at hR ⊢
    simp only [MarkerOutcome.ofKind, Prod.mk.injEq] at hag
    have hex : imageExists fsA (tScene.GetHash t.fileNamingAlgorithm) sceneMarker.Seconds =
        imageExists fsB (tScene.GetHash t.fileNamingAlgorithm) sceneMarker.Seconds := by
      unfold imageExists FileExists
      by_cases hc : tScene.GetHash t.fileNamingAlgorithm = "" <;> simp [hc, hR]
    have hfr : ∀ (o : MarkerOutcome) (fs0 : FS),
        (videoStep videoFile scene (tScene.GetHash t.fileNamingAlgorithm) sceneMarker.Seconds o
          fs0).1 (GetStreamPreviewImagePath (tScene.GetHash t.fileNamingAlgorithm)
            sceneMarker.Seconds) =
        fs0 (GetStreamPreviewImagePath (tScene.GetHash t.fileNamingAlgorithm)
          sceneMarker.Seconds) :=
      fun o fs0 => videoStep_frame _ _ _ _ _ _ _ (by simp [GetStreamPreviewImagePath, GetTmpPath])
        (by simp [GetStreamPath, GetStreamPreviewImagePath])
    constructor
    · rw [hex, hag.1]
      split_ifs <;>
        simp [kindEvents, Event.kindOf, GetStreamPath, GetStreamPreviewImagePath]
    · rw [hex]
      split_ifs <;>
        simp only [hfr, imageStep_canonical_isSome, hag.1, hag.2, hR]

/-- A canonical path is touched by `generateMarker` only when it is the canonical
path of the marker for the same kind. -/
theorem generateMarker_frame_canonical (t : GenerateMarkersTask) (videoFile : VideoFile)
    (scene : Scene) (sceneMarker : SceneMarker) (o : MarkerOutcome) (fs fs1 : FS)
    (tr : List Event) (tScene : Scene) (h : t.Scene = some tScene)
    (hr : generateMarker t videoFile scene sceneMarker o fs = some (fs1, tr))
    (k : Kind) (seconds : Int)
    (hne : canonicalPath (tScene.GetHash t.fileNamingAlgorithm) sceneMarker.Seconds k ≠
      canonicalPath (tScene.GetHash t.fileNamingAlgorithm) seconds k) :
    fs1 (canonicalPath (tScene.GetHash t.fileNamingAlgorithm) seconds k) =
      fs (canonicalPath (tScene.GetHash t.fileNamingAlgorithm) seconds k) := by
  apply generateMarker_frame t videoFile scene sceneMarker o fs fs1 tr tScene h hr
  · cases k <;> simp [canonicalPath, GetStreamPath, GetStreamPreviewImagePath, GetTmpPath]
  · cases k <;> simp [canonicalPath, GetStreamPath, GetStreamPreviewImagePath, GetTmpPath]
  · cases k with
    | clip => exact fun heq => hne heq.symm
    | previewImage => simp [canonicalPath, GetStreamPath, GetStreamPreviewImagePath]
  · cases k with
    | clip => simp [canonicalPath, GetStreamPath, GetStreamPreviewImagePath]
    | previewImage => exact fun heq => hne heq.symm

/-- Two runs of the loop whose outcomes agree on the pairs with one canonical
path make the same calls for those pairs. -/
theorem markerLoop_kind_agree (t : GenerateMarkersTask) (videoFile : VideoFile)
    (scene : Scene) (o1 o2 : Nat → MarkerOutcome) (tScene : Scene) (h : t.Scene = some tScene)
    (k : Kind) (seconds : Int) (sceneMarkers : List SceneMarker) :
    ∀ (i0 : Nat) (fsA fsB fsA1 fsB1 : FS) (trsA trsB : List (List Event)),
      (fsA (canonicalPath (tScene.GetHash t.fileNamingAlgorithm) seconds k)).isSome =
        (fsB (canonicalPath (tScene.GetHash t.fileNamingAlgorithm) seconds k)).isSome →
      (∀ j mj, sceneMarkers[j]? = some mj →
        canonicalPath (tScene.GetHash t.fileNamingAlgorithm) mj.Seconds k =
          canonicalPath (tScene.GetHash t.fileNamingAlgorithm) seconds k →
        (o1 (i0 + j)).ofKind k = (o2 (i0 + j)).ofKind k) →
      markerLoop t videoFile scene o1 i0 sceneMarkers fsA = some (fsA1, trsA) →
      markerLoop t videoFile scene o2 i0 sceneMarkers fsB = some (fsB1, trsB) →
      ∀ j mj, sceneMarkers[j]? = some mj →
        canonicalPath (tScene.GetHash t.fileNamingAlgorithm) mj.Seconds k =
          canonicalPath (tScene.GetHash t.fileNamingAlgorithm) seconds k →
        kindEvents k (trsA.getD j []) = kindEvents k (trsB.getD j []) := by
  induction sceneMarkers with
  | nil =>
    intro i0 fsA fsB fsA1 fsB1 trsA trsB _ _ _ _ j mj hj
    simp at hj
  | cons m rest ih =>
    intro i0 fsA fsB fsA1 fsB1 trsA trsB hR hag hrA hrB j mj hj hpath
    obtain ⟨fa, ta, hga⟩ := generateMarker_total t videoFile scene m (o1 i0) fsA tScene h
    obtain ⟨fb, tb, hgb⟩ := generateMarker_total t videoFile scene m (o2 i0) fsB tScene h
    obtain ⟨fa2, trsa2, hla, _⟩ :=
      markerLoop_total t videoFile scene o1 tScene h rest (i0 + 1) fa
    obtain ⟨fb2, trsb2, hlb, _⟩ :=
      markerLoop_total t videoFile scene o2 tScene h rest (i0 + 1) fb
    simp only [markerLoop, hga, hla, Option.some.injEq, Prod.mk.injEq] at hrA
    simp only [markerLoop, hgb, hlb, Option.some.injEq, Prod.mk.injEq] at hrB
    rw [← hrA.2, ← hrB.2]
    by_cases hp : canonicalPath (tScene.GetHash t.fileNamingAlgorithm) m.Seconds k =
        canonicalPath (tScene.GetHash t.fileNamingAlgorithm) seconds k
    · have hag0 : (o1 i0).ofKind k = (o2 i0).ofKind k := by
        have := hag 0 m (by simp) hp
        simpa using this
      have hstep := generateMarker_kind_agree t videoFile scene m (o1 i0) (o2 i0) fsA fsB fa fb
        ta tb tScene h k (by rw [hp]; exact hR) hag0 hga hgb
      rw [hp] at hstep
      cases j with
      | zero => simpa using hstep.1
      | succ j2 =>
        simp only [List.getD_cons_succ]
        simp only [List.getElem?_cons_succ] at hj
        refine ih (i0 + 1) fa fb fa2 fb2 trsa2 trsb2 hstep.2 ?_ hla hlb j2 mj hj hpath
        intro j3 m3 hj3 hp3
        have := hag (j3 + 1) m3 (by simpa using hj3) hp3
        rw [show i0 + 1 + j3 = i0 + (j3 + 1) by omega]
        exact this
    · have hfa := generateMarker_frame_canonical t videoFile scene m (o1 i0) fsA fa ta tScene h
        hga k seconds hp
      have hfb := generateMarker_frame_canonical t videoFile scene m (o2 i0) fsB fb tb tScene h
        hgb k seconds hp
      cases j with
      | zero =>
        simp only [List.getElem?_cons_zero, Option.some.injEq] at hj
        rw [hj] at hp
        exact absurd hpath hp
      | succ j2 =>
        simp only [List.getD_cons_succ]
        simp only [List.getElem?_cons_succ] at hj
        refine ih (i0 + 1) fa fb fa2 fb2 trsa2 trsb2 (by rw [hfa, hfb]; exact hR) ?_ hla hlb
          j2 mj hj hpath
        intro j3 m3 hj3 hp3
        have := hag (j3 + 1) m3 (by simpa using hj3) hp3
        rw [show i0 + 1 + j3 = i0 + (j3 + 1) by omega]
        exact this

/-- The loop removes no file outside the temp root. -/
theorem markerLoop_isSome (t : GenerateMarkersTask) (videoFile : VideoFile) (scene : Scene)
    (o : Nat → MarkerOutcome) (tScene : Scene) (h : t.Scene = some tScene)
    (sceneMarkers : List SceneMarker) :
    ∀ (i0 : Nat) (fs0 fsE : FS) (trsE : List (List Event)),
      markerLoop t videoFile scene o i0 sceneMarkers fs0 = some (fsE, trsE) →
      ∀ p : Path, p.isTmp = false → (fs0 p).isSome = true → (fsE p).isSome = true := by
  induction sceneMarkers with
  | nil =>
    intro i0 fs0 fsE trsE hr p _ hp
    simp only [markerLoop, Option.some.injEq, Prod.mk.injEq] at hr
    rw [← hr.1]
    exact hp
  | cons m rest ih =>
    intro i0 fs0 fsE trsE hr p hpt hp
    obtain ⟨fa, ta, hga⟩ := generateMarker_total t videoFile scene m (o i0) fs0 tScene h
    obtain ⟨fb, trs2, hl, _⟩ := markerLoop_total t videoFile scene o tScene h rest (i0 + 1) fa
    simp only [markerLoop, hga, hl, Option.some.injEq, Prod.mk.injEq] at hr
    rw [← hr.1]
    exact ih (i0 + 1) fa fb trs2 hl p hpt
      (generateMarker_isSome t videoFile scene m (o i0) fs0 fa ta tScene h hga p hpt hp)

/-- When the encoder call and the move for a kind succeed, the artifact of that
kind is at its canonical path after `generateMarker`, whatever happens to the
other kind. -/
theorem generateMarker_kind_produced (t : GenerateMarkersTask) (videoFile : VideoFile)
    (scene : Scene) (sceneMarker : SceneMarker) (o : MarkerOutcome) (fs fs1 : FS)
    (tr : List Event) (tScene : Scene) (h : t.Scene = some tScene) (k : Kind)
    (hs : (o.ofKind k).1.succeeded = true) (hmv : (o.ofKind k).2 = true)
    (hr : generateMarker t videoFile scene sceneMarker o fs = some (fs1, tr)) :
    (fs1 (canonicalPath (tScene.GetHash t.fileNamingAlgorithm) sceneMarker.Seconds k)).isSome
      = true := by
  rw [generateMarker_eq t videoFile scene sceneMarker o fs tScene h] at hr
  simp only [Option.some.injEq, Prod.mk.injEq] at hr
  rw [← hr.1]
  cases k with
  | clip =>
    simp only [MarkerOutcome.ofKind] at hs hmv
    simp only [canonicalPath]
    have hfr : ∀ fs0 : FS,
        (imageStep videoFile scene (tScene.GetHash t.fileNamingAlgorithm) sceneMarker.Seconds o
          fs0).1 (GetStreamPath (tScene.GetHash t.fileNamingAlgorithm) sceneMarker.Seconds) =
        fs0 (GetStreamPath (tScene.GetHash t.fileNamingAlgorithm) sceneMarker.Seconds) :=
      fun fs0 => imageStep_frame _ _ _ _ _ _ _ (by simp [GetStreamPath, GetTmpPath])
        (by simp [GetStreamPath, GetStreamPreviewImagePath])
    have hex : (t.Overwrite ||
        !videoExists fs (tScene.GetHash t.fileNamingAlgorithm) sceneMarker.Seconds) = false →
        (fs (GetStreamPath (tScene.GetHash t.fileNamingAlgorithm)
          sceneMarker.Seconds)).isSome = true := by
      intro hn
      simp only [Bool.or_eq_false_iff, Bool.not_eq_false'] at hn
      have hv := hn.2
      unfold videoExists FileExists at hv
      by_cases hc : tScene.GetHash t.fileNamingAlgorithm = ""
      · simp [hc] at hv
      · simpa [hc] using hv
    by_cases hv : (t.Overwrite ||
        !videoExists fs (tScene.GetHash t.fileNamingAlgorithm) sceneMarker.Seconds) = true
    · split_ifs <;> simp only [hfr, videoStep_canonical_isSome, hs, hmv] <;> rfl
    · have hv2 := hex (by simpa using hv)
      split_ifs <;> simp only [hfr, hv2]
  | previewImage =>
    simp only [MarkerOutcome.ofKind] at hs hmv
    simp only [canonicalPath]
    have hfr : ∀ fs0 : FS,
        (videoStep videoFile scene (tScene.GetHash t.fileNamingAlgorithm) sceneMarker.Seconds o
          fs0).1 (GetStreamPreviewImagePath (tScene.GetHash t.fileNamingAlgorithm)
            sceneMarker.Seconds) =
        fs0 (GetStreamPreviewImagePath (tScene.GetHash t.fileNamingAlgorithm)
          sceneMarker.Seconds) :=
      fun fs0 => videoStep_frame _ _ _ _ _ _ _ (by simp [GetStreamPreviewImagePath, GetTmpPath])
        (by simp [GetStreamPath, GetStreamPreviewImagePath])
    have hex : (t.Overwrite ||
        !imageExists fs (tScene.GetHash t.fileNamingAlgorithm) sceneMarker.Seconds) = false →
        (fs (GetStreamPreviewImagePath (tScene.GetHash t.fileNamingAlgorithm)
          sceneMarker.Seconds)).isSome = true := by
      intro hn
      simp only [Bool.or_eq_false_iff, Bool.not_eq_false'] at hn
      have hv := hn.2
      unfold imageExists FileExists at hv
      by_cases hc : tScene.GetHash t.fileNamingAlgorithm = ""
      · simp [hc] at hv
      · simpa [hc] using hv
    by_cases hi : (t.Overwrite ||
        !imageExists fs (tScene.GetHash t.fileNamingAlgorithm) sceneMarker.Seconds) = true
    · split_ifs <;> simp only [hfr, imageStep_canonical_isSome, hs, hmv] <;> rfl
    · have hi2 := hex (by simpa using hi)
      split_ifs <;> simp only [hfr, hi2]

/-- For each kind, the calls of `generateMarker` contain a call of the encoder
exactly when `Overwrite` is set or the artifact does not exist in the tree the
call starts from. -/
theorem generateMarker_any_encode (t : GenerateMarkersTask) (videoFile : VideoFile)
    (scene : Scene) (sceneMarker : SceneMarker) (o : MarkerOutcome) (fs fs1 : FS)
    (tr : List Event) (tScene : Scene) (h : t.Scene = some tScene)
    (hr : generateMarker t videoFile scene sceneMarker o fs = some (fs1, tr)) :
    (tr.any Event.isVideoEncode = true ↔
      (t.Overwrite = true ∨
        videoExists fs (tScene.GetHash t.fileNamingAlgorithm) sceneMarker.Seconds = false)) ∧
    (tr.any Event.isImageEncode = true ↔
      (t.Overwrite = true ∨
        imageExists fs (tScene.GetHash t.fileNamingAlgorithm) sceneMarker.Seconds = false)) := by
  obtain ⟨fa, htr⟩ := generateMarker_trace t videoFile scene sceneMarker o fs tScene h
  rw [hr] at htr
  simp only [Option.some.injEq, Prod.mk.injEq] at htr
  rw [htr.2]
  constructor
  · by_cases hv : (t.Overwrite ||
        !videoExists fs (tScene.GetHash t.fileNamingAlgorithm) sceneMarker.Seconds) = true <;>
    by_cases hi : (t.Overwrite ||
        !imageExists fs (tScene.GetHash t.fileNamingAlgorithm) sceneMarker.Seconds) = true <;>
    by_cases hs : o.video.succeeded = true <;>
    by_cases hs2 : o.image.succeeded = true <;>
    simp [hv, hi, hs, hs2, Event.isVideoEncode] <;>
    simpa using hv
  · by_cases hv : (t.Overwrite ||
        !videoExists fs (tScene.GetHash t.fileNamingAlgorithm) sceneMarker.Seconds) = true <;>
    by_cases hi : (t.Overwrite ||
        !imageExists fs (tScene.GetHash t.fileNamingAlgorithm) sceneMarker.Seconds) = true <;>
    by_cases hs : o.video.succeeded = true <;>
    by_cases hs2 : o.image.succeeded = true <;>
    simp [hv, hi, hs, hs2, Event.isImageEncode] <;>
    simpa using hi

/-- The calls the loop makes for the marker at position `j` are those of
`generateMarker` for that marker on the tree the loop has reached after the
markers before it; files that call leaves outside the temp root are there at the
end of the loop. -/
theorem markerLoop_steps (t : GenerateMarkersTask) (videoFile : VideoFile) (scene : Scene)
    (o : Nat → MarkerOutcome) (tScene : Scene) (h : t.Scene = some tScene)
    (sceneMarkers : List SceneMarker) :
    ∀ (i0 : Nat) (fs0 fsE : FS) (trsE : List (List Event)),
      markerLoop t videoFile scene o i0 sceneMarkers fs0 = some (fsE, trsE) →
      ∀ j mj, sceneMarkers[j]? = some mj →
        ∃ fsj fsj1,
          markerLoop t videoFile scene o i0 (sceneMarkers.take j) fs0 =
            some (fsj, trsE.take j) ∧
          generateMarker t videoFile scene mj (o (i0 + j)) fsj = some (fsj1, trsE.getD j []) ∧
          ∀ p : Path, p.isTmp = false → (fsj1 p).isSome = true → (fsE p).isSome = true := by
  induction sceneMarkers with
  | nil =>
    intro i0 fs0 fsE trsE _ j mj hj
    simp at hj
  | cons m rest ih =>
    intro i0 fs0 fsE trsE hr j mj hj
    obtain ⟨fa, ta, hga⟩ := generateMarker_total t videoFile scene m (o i0) fs0 tScene h
    obtain ⟨fb, trs2, hl, _⟩ := markerLoop_total t videoFile scene o tScene h rest (i0 + 1) fa
    simp only [markerLoop, hga, hl, Option.some.injEq, Prod.mk.injEq] at hr
    rw [← hr.1, ← hr.2]
    cases j with
    | zero =>
      simp only [List.getElem?_cons_zero, Option.some.injEq] at hj
      subst hj
      refine ⟨fs0, fa, ?_, ?_, ?_⟩
      · simp [markerLoop]
      · simpa using hga
      · intro p hpt hp
        exact markerLoop_isSome t videoFile scene o tScene h rest (i0 + 1) fa fb trs2 hl p hpt hp
    | succ j2 =>
      simp only [List.getElem?_cons_succ] at hj
      obtain ⟨fsj, fsj1, hpre, hgen, hmono⟩ := ih (i0 + 1) fa fb trs2 hl j2 mj hj
      refine ⟨fsj, fsj1, ?_, ?_, hmono⟩
      · simp only [List.take_succ_cons, markerLoop, hga, hpre]
      · rw [show i0 + (j2 + 1) = i0 + 1 + j2 by omega]
        simpa using hgen

/-- C5: whatever fails, the loop over the markers of a scene returns with one
list of calls for every marker, and for every marker of the list these calls are
the calls of `generateMarker` for that marker on the tree reached after the
markers before it: each kind is encoded exactly when `Overwrite` is set or the
artifact does not exist in that tree, a failure of the other kind or of an
earlier marker notwithstanding, and a pair whose own encoder call and move
succeed has its artifact at the canonical path when the loop ends.  The calls
made for a (marker, kind) pair (the encoder call, and the move of its output
when it succeeds) are the same in two runs from the same tree whose outcomes
agree on the pairs with the same canonical path: how the encoder calls and moves
for the pairs with a different canonical path turn out does not matter. -/
theorem markerLoop_failure_isolation (t : GenerateMarkersTask) (videoFile : VideoFile)
    (scene : Scene) (o1 o2 : Nat → MarkerOutcome) (tScene : Scene) (fs : FS)
    (sceneMarkers : List SceneMarker) (i : Nat) (m : SceneMarker) (k : Kind)
    (h : t.Scene = some tScene) (hm : sceneMarkers[i]? = some m)
    (hag : ∀ j mj, sceneMarkers[j]? = some mj →
      canonicalPath (tScene.GetHash t.fileNamingAlgorithm) mj.Seconds k =
        canonicalPath (tScene.GetHash t.fileNamingAlgorithm) m.Seconds k →
      (o1 j).ofKind k = (o2 j).ofKind k) :
    (∀ o : Nat → MarkerOutcome, ∃ fsE trsE,
      markerLoop t videoFile scene o 0 sceneMarkers fs = some (fsE, trsE) ∧
      trsE.length = sceneMarkers.length ∧
      ∀ j mj, sceneMarkers[j]? = some mj →
        ∃ fsj fsj1,
          markerLoop t videoFile scene o 0 (sceneMarkers.take j) fs = some (fsj, trsE.take j) ∧
          generateMarker t videoFile scene mj (o j) fsj = some (fsj1, trsE.getD j []) ∧
          ((trsE.getD j []).any Event.isVideoEncode = true ↔
            (t.Overwrite = true ∨
              videoExists fsj (tScene.GetHash t.fileNamingAlgorithm) mj.Seconds = false)) ∧
          ((trsE.getD j []).any Event.isImageEncode = true ↔
            (t.Overwrite = true ∨
              imageExists fsj (tScene.GetHash t.fileNamingAlgorithm) mj.Seconds = false)) ∧
          ∀ k2, ((o j).ofKind k2).1.succeeded = true → ((o j).ofKind k2).2 = true →
            (fsE (canonicalPath (tScene.GetHash t.fileNamingAlgorithm) mj.Seconds k2)).isSome
              = true) ∧
    ∃ fs1 trs1 fs2 trs2,
      markerLoop t videoFile scene o1 0 sceneMarkers fs = some (fs1, trs1) ∧
      markerLoop t videoFile scene o2 0 sceneMarkers fs = some (fs2, trs2) ∧
      trs1.length = sceneMarkers.length ∧ trs2.length = sceneMarkers.length ∧
      kindEvents k (trs1.getD i []) = kindEvents k (trs2.getD i []) := by
  constructor
  · intro o
    obtain ⟨fsE, trsE, hE, hlE⟩ :=
      markerLoop_total t videoFile scene o tScene h sceneMarkers 0 fs
    refine ⟨fsE, trsE, hE, hlE, ?_⟩
    intro j mj hj
    obtain ⟨fsj, fsj1, hpre, hgen, hmono⟩ :=
      markerLoop_steps t videoFile scene o tScene h sceneMarkers 0 fs fsE trsE hE j mj hj
    rw [Nat.zero_add] at hgen
    have hany := generateMarker_any_encode t videoFile scene mj (o j) fsj fsj1 _ tScene h hgen
    refine ⟨fsj, fsj1, hpre, hgen, hany.1, hany.2, ?_⟩
    intro k2 hs hmv
    apply hmono
    · cases k2 <;> rfl
    · exact generateMarker_kind_produced t videoFile scene mj (o j) fsj fsj1 _ tScene h k2 hs hmv
        hgen
  · obtain ⟨fs1, trs1, h1, hl1⟩ :=
      markerLoop_total t videoFile scene o1 tScene h sceneMarkers 0 fs
    obtain ⟨fs2, trs2, h2, hl2⟩ :=
      markerLoop_total t videoFile scene o2 tScene h sceneMarkers 0 fs
    refine ⟨fs1, trs1, fs2, trs2, h1, h2, hl1, hl2, ?_⟩
    refine markerLoop_kind_agree t videoFile scene o1 o2 tScene h k m.Seconds sceneMarkers 0 fs
      fs fs1 fs2 trs1 trs2 rfl ?_ h1 h2 i m hm rfl
    intro j mj hj hp
    rw [Nat.zero_add]
    exact hag j mj hj hp

/-- Witness for `markerLoop_failure_isolation`: of three markers the clip of the
second fails to encode.  The preview image of the second marker and the clip of
the third are at their canonical paths when the loop ends, and the calls for the
preview image of the second marker are what they are when nothing fails. -/
theorem markerLoop_failure_isolation_witness :
    (∃ fsE trsE,
      markerLoop exTask { Path := "/media/a.mp4" } exScene exSecondClipFails 0 exThreeMarkers
        emptyFS = some (fsE, trsE) ∧
      trsE.length = exThreeMarkers.length ∧
      (fsE (canonicalPath "abc" 10 .previewImage)).isSome = true ∧
      (fsE (canonicalPath "abc" 15 .clip)).isSome = true) ∧
    ∃ fs1 trs1 fs2 trs2,
      markerLoop exTask { Path := "/media/a.mp4" } exScene (fun _ => exAllOk) 0 exThreeMarkers
        emptyFS = some (fs1, trs1) ∧
      markerLoop exTask { Path := "/media/a.mp4" } exScene exSecondClipFails 0 exThreeMarkers
        emptyFS = some (fs2, trs2) ∧
      trs1.length = exThreeMarkers.length ∧ trs2.length = exThreeMarkers.length ∧
      kindEvents .previewImage (trs1.getD 1 []) = kindEvents .previewImage (trs2.getD 1 []) := by
  have hthm := markerLoop_failure_isolation exTask { Path := "/media/a.mp4" } exScene
    (fun _ => exAllOk) exSecondClipFails exScene emptyFS exThreeMarkers 1
    { SceneID := 1, Seconds := 10 } .previewImage rfl rfl
    (fun j _ _ _ => by
      unfold exSecondClipFails
      by_cases hj : j = 1 <;> simp [hj, MarkerOutcome.ofKind, exVideoFails, exAllOk])
  refine ⟨?_, hthm.2⟩
  obtain ⟨fsE, trsE, hE, hlE, hsteps⟩ := hthm.1 exSecondClipFails
  obtain ⟨_, _, _, _, _, _, hp1⟩ := hsteps 1 { SceneID := 1, Seconds := 10 } rfl
  obtain ⟨_, _, _, _, _, _, hp2⟩ := hsteps 2 { SceneID := 1, Seconds := 15 } rfl
  exact ⟨fsE, trsE, hE, hlE, hp1 .previewImage rfl rfl, hp2 .clip rfl rfl⟩

/-- The example of section 8 run: of three markers the clip of the second fails
to encode; the encoder is still called twice for every marker and the other five
outputs are moved to their canonical paths. -/
theorem three_markers_second_clip_fails :
    (markerLoop exTask { Path := "/media/a.mp4" } exScene exSecondClipFails 0 exThreeMarkers
        emptyFS).map
      (fun r => (r.2.map encoderInvocations, r.2.map moves,
        [r.1 (GetStreamPath "abc" 5), r.1 (GetStreamPreviewImagePath "abc" 5),
         r.1 (GetStreamPath "abc" 10), r.1 (GetStreamPreviewImagePath "abc" 10),
         r.1 (GetStreamPath "abc" 15), r.1 (GetStreamPreviewImagePath "abc" 15)])) =
    some ([2, 2, 2], [2, 1, 2], [some 11, some 12, none, some 12, some 11, some 12]) := by
  rfl

/-! ## Performer mutations -/

/-- C2: with the image of the input processed, if `Create`, `UpdateImage` or
`UpdateStashIDs` fails inside the transaction of `PerformerCreate`, the resolver
returns that error (and no performer), the failing call is the last repository
call made, and the store after the call is the store before it. -/
theorem PerformerCreate_rollback {σ : Type} (env : Env) (repo : PerformerRepo σ)
    (input : PerformerCreateInput) (s : σ) (imageData : List Nat)
    (himg : processImage env input.Image = .ok imageData) :
    (∀ e, repo.Create (newPerformer env input) s = .error e →
      (PerformerCreate env repo input s).result = .error e ∧
      (PerformerCreate env repo input s).store = s ∧
      (PerformerCreate env repo input s).calls = [.Create (newPerformer env input)]) ∧
    (∀ performer s1 e, repo.Create (newPerformer env input) s = .ok (performer, s1) →
      0 < imageData.length →
      repo.UpdateImage performer.ID imageData s1 = .error e →
      (PerformerCreate env repo input s).result = .error e ∧
      (PerformerCreate env repo input s).store = s ∧
      (PerformerCreate env repo input s).calls =
        [.Create (newPerformer env input), .UpdateImage performer.ID imageData]) ∧
    (∀ performer s1 s2 stashIds e,
      repo.Create (newPerformer env input) s = .ok (performer, s1) →
      ((0 < imageData.length ∧ repo.UpdateImage performer.ID imageData s1 = .ok s2) ∨
        (imageData.length = 0 ∧ s2 = s1)) →
      input.StashIds = some stashIds →
      repo.UpdateStashIDs performer.ID (env.StashIDsFromInput stashIds) s2 = .error e →
      (PerformerCreate env repo input s).result = .error e ∧
      (PerformerCreate env repo input s).store = s ∧
      (PerformerCreate env repo input s).calls =
        .Create (newPerformer env input) ::
          (if 0 < imageData.length then [.UpdateImage performer.ID imageData] else []) ++
          [.UpdateStashIDs performer.ID (env.StashIDsFromInput stashIds)]) := by
  refine ⟨?_, ?_, ?_⟩
  · intro e hc
    simp [PerformerCreate, himg, withTxn, performerCreateTxn, hc]
  · intro performer s1 e hc hlen hu
    simp [PerformerCreate, himg, withTxn, performerCreateTxn, hc, hlen, hu]
  · intro performer s1 s2 stashIds e hc hi hs hu
    rcases hi with ⟨hlen, hui⟩ | ⟨hlen, rfl⟩
    · simp [PerformerCreate, himg, withTxn, performerCreateTxn, hc, hlen, hui, hs, hu]
    · have hlen2 : ¬ 0 < imageData.length := by omega
      have hnil : imageData = [] := List.length_eq_zero.mp hlen
      simp [PerformerCreate, himg, withTxn, performerCreateTxn, hc, hnil, hs, hu]

/-- Witness for `PerformerCreate_rollback`, the example of section 8: a performer
with an image and two external-id links is created on an empty store and the
write of the links fails; the store is empty afterwards. -/
theorem PerformerCreate_rollback_witness :
    processImage exEnv exCreateInput.Image = .ok [1, 2, 3] ∧
      (PerformerCreate exEnv (exRepo true) exCreateInput {}).result =
        .error "FOREIGN KEY constraint failed" ∧
      (PerformerCreate exEnv (exRepo true) exCreateInput {}).store =
        { performers := [], images := [], stashIDs := [] } ∧
      (PerformerCreate exEnv (exRepo true) exCreateInput {}).calls.length = 3 := by
  obtain ⟨hr, hs, hc⟩ :=
    (PerformerCreate_rollback exEnv (exRepo true) exCreateInput {} [1, 2, 3] rfl).2.2
      { newPerformer exEnv exCreateInput with ID := 1 }
      { performers := [{ newPerformer exEnv exCreateInput with ID := 1 }] }
      { performers := [{ newPerformer exEnv exCreateInput with ID := 1 }],
        images := [(1, [1, 2, 3])] }
      [{ Endpoint := "https://a.example", StashID := "x1" },
        { Endpoint := "https://b.example", StashID := "x2" }]
      "FOREIGN KEY constraint failed" rfl (Or.inl ⟨by decide, rfl⟩) rfl rfl
  exact ⟨rfl, hr, hs, by rw [hc]; rfl⟩

/-- The transaction of `PerformerCreate` calls `Create` first, with the record it
is given, and calls `Create` with nothing else. -/
theorem performerCreateTxn_calls {σ : Type} (env : Env) (repo : PerformerRepo σ)
    (input : PerformerCreateInput) (np : Performer) (imageData : List Nat) (s : σ) :
    (performerCreateTxn env repo input np imageData s).1.head? = some (.Create np) ∧
      ∀ p, RepoCall.Create p ∈ (performerCreateTxn env repo input np imageData s).1 → p = np := by
  unfold performerCreateTxn
  cases hC : repo.Create np s with
  | error e => simp
  | ok r =>
    obtain ⟨performer, s1⟩ := r
    by_cases hlen : imageData.length > 0
    · cases hU : repo.UpdateImage performer.ID imageData s1 with
      | error e => simp [hlen, hU]
      | ok s2 =>
        cases hS : input.StashIds with
        | none => simp [hlen, hU, hS]
        | some ids =>
          cases hX : repo.UpdateStashIDs performer.ID (env.StashIDsFromInput ids) s2 <;>
            simp [hlen, hU, hS, hX]
    · cases hS : input.StashIds with
      | none => simp [hlen, hS]
      | some ids =>
        cases hX : repo.UpdateStashIDs performer.ID (env.StashIDsFromInput ids) s1 <;>
          simp [hlen, hS, hX]

/-- The transaction of `PerformerUpdate` calls `Update` first, with the partial it
is given, and calls `Update` with nothing else. -/
theorem performerUpdateTxn_calls {σ : Type} (env : Env) (repo : PerformerRepo σ)
    (input : PerformerUpdateInput) (inputMap : List String) (up : PerformerPartial)
    (imageData : List Nat) (s : σ) :
    (performerUpdateTxn env repo input inputMap up imageData s).1.head? = some (.Update up) ∧
      ∀ p, RepoCall.Update p ∈ (performerUpdateTxn env repo input inputMap up imageData s).1 →
        p = up := by
  unfold performerUpdateTxn
  cases hC : repo.Update up s with
  | error e => simp
  | ok r =>
    obtain ⟨performer, s1⟩ := r
    by_cases hlen : imageData.length > 0
    · cases hU : repo.UpdateImage performer.ID imageData s1 with
      | error e => simp [hlen, hU]
      | ok s2 =>
        by_cases hS : hasField inputMap "stash_ids" = true
        · cases hX : repo.UpdateStashIDs up.ID
              (env.StashIDsFromInput (input.StashIds.getD [])) s2 <;>
            simp [hlen, hU, hS, hX]
        · simp [hlen, hU, hS]
    · by_cases hI : hasField inputMap "image" = true
      · cases hU : repo.DestroyImage performer.ID s1 with
        | error e => simp [hlen, hI, hU]
        | ok s2 =>
          by_cases hS : hasField inputMap "stash_ids" = true
          · cases hX : repo.UpdateStashIDs up.ID
                (env.StashIDsFromInput (input.StashIds.getD [])) s2 <;>
              simp [hlen, hI, hU, hS, hX]
          · simp [hlen, hI, hU, hS]
      · by_cases hS : hasField inputMap "stash_ids" = true
        · cases hX : repo.UpdateStashIDs up.ID
              (env.StashIDsFromInput (input.StashIds.getD [])) s1 <;>
            simp [hlen, hI, hS, hX]
        · simp [hlen, hI, hS]

/-- The calls of a transaction are the calls of its function. -/
theorem withTxn_calls {σ α : Type} (fn : σ → List RepoCall × Except String (α × σ)) (s : σ) :
    (withTxn fn s).calls = (fn s).1 := by
  unfold withTxn
  split <;> simp_all

/-- C8: the record `PerformerCreate` passes to `Create` has the MD5 of the name
of the input as its checksum and that name as its name; the partial
`PerformerUpdate` passes to `Update` sets the checksum exactly when a name is
supplied, to the MD5 of the new name, together with the name; so a stored
performer whose checksum is the MD5 of its name keeps that property when the
partial is applied.  Each resolver makes the call first thing once the image of
its input is processed. -/
theorem performer_checksum_invariant {σ : Type} (env : Env) (repo : PerformerRepo σ)
    (input : PerformerCreateInput) (uinput : PerformerUpdateInput) (inputMap : List String)
    (s : σ) (stored : Performer) :
    (∀ p, RepoCall.Create p ∈ (PerformerCreate env repo input s).calls →
      p.Checksum = env.MD5FromString input.Name ∧
      p.Name = { String := input.Name, Valid := true } ∧
      p.Checksum = env.MD5FromString p.Name.String) ∧
    (∀ imageData, processImage env input.Image = .ok imageData →
      ∃ p, (PerformerCreate env repo input s).calls.head? = some (.Create p)) ∧
    (∀ p, RepoCall.Update p ∈ (PerformerUpdate env repo uinput inputMap s).calls →
      (p.Checksum.isSome = uinput.Name.isSome) ∧
      (∀ name, uinput.Name = some name →
        p.Checksum = some (env.MD5FromString name) ∧
        p.Name = some { String := name, Valid := true }) ∧
      (uinput.Name = none → p.Checksum = none ∧ p.Name = none) ∧
      (stored.Checksum = env.MD5FromString stored.Name.String →
        (p.applyTo stored).Checksum = env.MD5FromString (p.applyTo stored).Name.String)) ∧
    (∀ imageData, processImage env uinput.Image = .ok imageData →
      ∃ p, (PerformerUpdate env repo uinput inputMap s).calls.head? = some (.Update p)) := by
  refine ⟨?_, ?_, ?_, ?_⟩
  · intro p hp
    have hpe : p = newPerformer env input := by
      unfold PerformerCreate at hp
      cases himg : processImage env input.Image with
      | error e => simp [himg] at hp
      | ok imageData =>
        simp only [himg, withTxn_calls] at hp
        exact (performerCreateTxn_calls env repo input _ imageData s).2 p hp
    subst hpe
    simp [newPerformer]
  · intro imageData himg
    unfold PerformerCreate
    simp only [himg, withTxn_calls]
    exact ⟨_, (performerCreateTxn_calls env repo input _ imageData s).1⟩
  · intro p hp
    have hpe : p = updatedPerformer env uinput inputMap := by
      unfold PerformerUpdate at hp
      cases himg : processImage env uinput.Image with
      | error e => simp [himg] at hp
      | ok imageData =>
        simp only [himg, withTxn_calls] at hp
        exact (performerUpdateTxn_calls env repo uinput inputMap _ imageData s).2 p hp
    subst hpe
    cases hn : uinput.Name with
    | none =>
      simp only [updatedPerformer, hn, PerformerPartial.applyTo]
      simp
    | some name =>
      simp only [updatedPerformer, hn, PerformerPartial.applyTo]
      simp
  · intro imageData himg
    unfold PerformerUpdate
    simp only [himg, withTxn_calls]
    exact ⟨_, (performerUpdateTxn_calls env repo uinput inputMap _ imageData s).1⟩

/-- The invariant on a store: a performer is created, then renamed; the row that
is stored has the MD5 of its name as checksum after each step. -/
theorem checksum_after_create_and_update :
    (PerformerCreate exEnv (exRepo false) exCreateInputPlain {}).store.performers.map
        (fun row => (row.Name.String, row.Checksum)) = [("Ada", "md5(Ada)")] ∧
      (PerformerUpdate exEnv (exRepo false) exUpdateInput ["id", "name"]
          (PerformerCreate exEnv (exRepo false) exCreateInputPlain {}).store).store.performers.map
        (fun row => (row.Name.String, row.Checksum)) = [("Grace", "md5(Grace)")] := by
  constructor <;> rfl

end Stash
